import Mathlib

/-!
Verification of the burnbench result-persistence core
(`burnbench/src/persistence/base.rs`) against its specification.

The Rust code is shallowly embedded: `std::time::Duration` becomes a total
nanosecond count, fallible operations (`unwrap`, `expect`, `panic!`, integer
division by zero, serde errors) become `Option`/`Except` values, and the
serde JSON layer is embedded as an explicit JSON value type together with the
exact field-by-field serializer and map visitor from the source.
-/

namespace Burnbench

/-- Model of Rust `std::time::Duration`: a non-negative time span stored with
nanosecond precision.  Rust stores `(secs : u64, nanos : u32 < 10^9)`; we model
the total nanosecond count (arithmetic in Rust panics on overflow instead of
wrapping, so unbounded `ℕ` values never silently differ from Rust values). -/
structure Duration where
  nanos : ℕ
deriving DecidableEq, Repr

namespace Duration

/-- `Duration::from_secs`. -/
def fromSecs (s : ℕ) : Duration := ⟨s * 1000000000⟩

/-- `Duration::from_micros`. -/
def fromMicros (m : ℕ) : Duration := ⟨m * 1000⟩

/-- `Duration::from_nanos`. -/
def fromNanos (n : ℕ) : Duration := ⟨n⟩

/-- `Duration::as_micros`: whole microseconds, truncating. -/
def asMicros (d : Duration) : ℕ := d.nanos / 1000

/-- `Duration::as_secs_f64`, with the `f64` modeled as an exact rational.
All values appearing in the verified concrete computations are exactly
representable in `f64`, where every operation below is exact. -/
def asSecsRat (d : Duration) : ℚ := (d.nanos : ℚ) / 1000000000

/-- `Duration::from_secs_f64`, with the `f64` modeled as an exact rational:
rounds to the nearest nanosecond (Rust only accepts non-negative finite
inputs; this model is used only on squares, which are non-negative). -/
def fromSecsRat (q : ℚ) : Duration := ⟨(round (q * 1000000000)).toNat⟩

/-- `impl Div<u32> for Duration` (truncating nanosecond division);
Rust panics on division by zero, modeled as `none`. -/
def divU32 (d : Duration) (n : ℕ) : Option Duration :=
  if n = 0 then none else some ⟨d.nanos / n⟩

instance : Zero Duration := ⟨⟨0⟩⟩

instance : Inhabited Duration := ⟨⟨0⟩⟩

/-- `impl Ord for Duration`: ordered by total nanoseconds. -/
instance : LinearOrder Duration :=
  LinearOrder.lift' Duration.nanos (fun a b h => by cases a; cases b; simpa using h)

theorem le_def (a b : Duration) : a ≤ b ↔ a.nanos ≤ b.nanos := Iff.rfl

theorem lt_def (a b : Duration) : a < b ↔ a.nanos < b.nanos := by
  rw [lt_iff_le_not_le, Nat.lt_iff_le_not_le, le_def, le_def]

end Duration

/-- `iter().sum::<Duration>()` over a list of durations. -/
def sumDurations (l : List Duration) : Duration := ⟨(l.map Duration.nanos).sum⟩

/-- `enum TimingMethod`. -/
inductive TimingMethod where
  /-- Full timing of execution + sync calls (the `#[default]`). -/
  | System
  /-- Hardware reported timestamps from a sync call. -/
  | Device
deriving DecidableEq, Repr

instance : Inhabited TimingMethod := ⟨.System⟩

/-- `struct BenchmarkDurations`. -/
structure BenchmarkDurations where
  timing_method : TimingMethod
  durations : List Duration
deriving DecidableEq, Repr

instance : Inhabited BenchmarkDurations := ⟨⟨default, []⟩⟩

/-- `struct BenchmarkComputations`. -/
structure BenchmarkComputations where
  mean : Duration
  median : Duration
  variance : Duration
  min : Duration
  max : Duration
deriving DecidableEq, Repr

instance : Inhabited BenchmarkComputations := ⟨⟨default, default, default, default, default⟩⟩

namespace BenchmarkDurations

/-- `BenchmarkDurations::min_max_median_durations`: sorts a clone of the
sample list and reads off `(first, last, index len/2)`.  Each `unwrap`
panics on an empty list, modeled by `none`. -/
def min_max_median_durations (self : BenchmarkDurations) :
    Option (Duration × Duration × Duration) := do
  let sorted := List.insertionSort (· ≤ ·) self.durations
  let min ← sorted.head?
  let max ← sorted.getLast?
  let median ← sorted[sorted.length / 2]?
  pure (min, max, median)

/-- `BenchmarkDurations::mean_duration`: duration sum divided by
`self.durations.len() as u32` — the `as u32` is a wrapping narrowing cast,
modeled as `% 2 ^ 32`; `Duration / u32` panics when the cast count is zero
(the empty list, or any length that is a positive multiple of `2 ^ 32`),
modeled by `none`. -/
def mean_duration (self : BenchmarkDurations) : Option Duration :=
  (sumDurations self.durations).divU32 (self.durations.length % 2 ^ 32)

/-- `BenchmarkDurations::variance_duration`: for each sample, subtract the
mean in (exact-rational-modeled) floating-point seconds, square, convert back
to a duration; sum and divide by `self.durations.len() as u32` (wrapping
narrowing cast modeled as `% 2 ^ 32`; division by a zero cast count panics,
modeled by `none`). -/
def variance_duration (self : BenchmarkDurations) (mean : Duration) : Option Duration :=
  (sumDurations (self.durations.map fun duration =>
      let tmp := duration.asSecsRat - mean.asSecsRat
      Duration.fromSecsRat (tmp * tmp))).divU32
    (self.durations.length % 2 ^ 32)

end BenchmarkDurations

/-- `BenchmarkComputations::new`: mean first, then (min, max, median), then
the variance computed from the mean; any panic inside propagates (`none`). -/
def BenchmarkComputations.new (durations : BenchmarkDurations) :
    Option BenchmarkComputations := do
  let mean ← durations.mean_duration
  let (min, max, median) ← durations.min_max_median_durations
  pure { mean, median, min, max, variance := ← durations.variance_duration mean }

/-- Modelled from the spec: `BenchmarkSystemInfo` lives in the
`system_info` module, which is not part of the sources at hand; the spec
describes it as an "opaque inventory record (CPU/GPU name lists)". -/
structure BenchmarkSystemInfo where
  cpus : List String
  gpus : List String
deriving DecidableEq, Repr

instance : Inhabited BenchmarkSystemInfo := ⟨⟨[], []⟩⟩

/-- `struct BenchmarkResult` (its `Default` is all fields defaulted). -/
structure BenchmarkResult where
  raw : BenchmarkDurations
  computed : BenchmarkComputations
  git_hash : String
  name : String
  options : Option String
  shapes : List (List ℕ)
  timestamp : ℕ
deriving DecidableEq, Repr

instance : Inhabited BenchmarkResult := ⟨⟨default, default, "", "", none, [], 0⟩⟩

/-- `struct BenchmarkRecord` (its `Default` is all fields defaulted). -/
structure BenchmarkRecord where
  backend : String
  device : String
  feature : String
  burn_version : String
  system_info : BenchmarkSystemInfo
  results : BenchmarkResult
deriving DecidableEq, Repr

instance : Inhabited BenchmarkRecord := ⟨⟨"", "", "", "", default, default⟩⟩

/-! ## The serde JSON layer

`serde_json` values are embedded as an explicit JSON value type.  The schema
only ever carries non-negative integers, so numbers are modeled as `ℕ`. -/

/-- A JSON value as produced/consumed by `serde_json` for this schema. -/
inductive Json where
  | null
  | str (s : String)
  | num (n : ℕ)
  | arr (elems : List Json)
  | obj (fields : List (String × Json))

/-- How a decode can fail: `malformed` is a recoverable `serde` error
(`Err` from the deserializer), `panicked` is a Rust `panic!`/`expect`,
which aborts the process. -/
inductive DecodeError where
  | malformed (msg : String)
  | panicked (msg : String)
deriving DecidableEq, Repr

instance {ε α : Type} [DecidableEq ε] [DecidableEq α] : DecidableEq (Except ε α) :=
  fun a b =>
    match a, b with
    | .ok x, .ok y =>
      if h : x = y then .isTrue (by rw [h]) else .isFalse (by simp [h])
    | .error x, .error y =>
      if h : x = y then .isTrue (by rw [h]) else .isFalse (by simp [h])
    | .ok _, .error _ => .isFalse (by simp)
    | .error _, .ok _ => .isFalse (by simp)

namespace Json

/-- `next_value::<String>()`. -/
def asString : Json → Except DecodeError String
  | .str s => .ok s
  | _ => .error (.malformed "invalid type: expected a string")

/-- `next_value::<u64>()`. -/
def asU64 : Json → Except DecodeError ℕ
  | .num n =>
    if n < 2 ^ 64 then .ok n
    else .error (.malformed "invalid value: integer too large for u64")
  | _ => .error (.malformed "invalid type: expected u64")

/-- `next_value::<u32>()`. -/
def asU32 : Json → Except DecodeError ℕ
  | .num n =>
    if n < 2 ^ 32 then .ok n
    else .error (.malformed "invalid value: integer too large for u32")
  | _ => .error (.malformed "invalid type: expected u32")

/-- `next_value::<usize>()` (64-bit platform). -/
def asUsize : Json → Except DecodeError ℕ
  | .num n =>
    if n < 2 ^ 64 then .ok n
    else .error (.malformed "invalid value: integer too large for usize")
  | _ => .error (.malformed "invalid type: expected usize")

/-- `next_value::<u128>()`. -/
def asU128 : Json → Except DecodeError ℕ
  | .num n =>
    if n < 2 ^ 128 then .ok n
    else .error (.malformed "invalid value: integer too large for u128")
  | _ => .error (.malformed "invalid type: expected u128")

/-- `next_value::<Option<String>>()`: `null` is `None`, a string is `Some`. -/
def asOptString : Json → Except DecodeError (Option String)
  | .null => .ok none
  | .str s => .ok (some s)
  | _ => .error (.malformed "invalid type: expected a string or null")

/-- serde's `Deserialize for std::time::Duration`: a struct with fields
`secs : u64` and `nanos : u32`, accepted in either order, both required
(`Duration::new` then folds surplus nanoseconds into seconds). -/
def asDuration : Json → Except DecodeError Duration
  | .obj [("secs", s), ("nanos", n)] => do
    let s ← s.asU64
    let n ← n.asU32
    pure ⟨s * 1000000000 + n⟩
  | .obj [("nanos", n), ("secs", s)] => do
    let n ← n.asU32
    let s ← s.asU64
    pure ⟨s * 1000000000 + n⟩
  | _ => .error (.malformed "invalid type: expected struct Duration")

/-- `next_value::<Vec<Duration>>()`. -/
def asDurationList : Json → Except DecodeError (List Duration)
  | .arr elems => elems.mapM asDuration
  | _ => .error (.malformed "invalid type: expected a sequence")

/-- One shape: `Vec<usize>`. -/
def asShape : Json → Except DecodeError (List ℕ)
  | .arr elems => elems.mapM asUsize
  | _ => .error (.malformed "invalid type: expected a sequence")

/-- `next_value::<Vec<Vec<usize>>>()`. -/
def asShapes : Json → Except DecodeError (List (List ℕ))
  | .arr elems => elems.mapM asShape
  | _ => .error (.malformed "invalid type: expected a sequence")

/-- `Vec<String>` (inside `BenchmarkSystemInfo`). -/
def asStringList : Json → Except DecodeError (List String)
  | .arr elems => elems.mapM asString
  | _ => .error (.malformed "invalid type: expected a sequence")

/-- Modelled from the spec: `next_value::<BenchmarkSystemInfo>()`, a derived
deserializer for the opaque `{cpus, gpus}` inventory record (fields accepted
in either order, both required). -/
def asSystemInfo : Json → Except DecodeError BenchmarkSystemInfo
  | .obj [("cpus", c), ("gpus", g)] => do
    let c ← c.asStringList
    let g ← g.asStringList
    pure ⟨c, g⟩
  | .obj [("gpus", g), ("cpus", c)] => do
    let g ← g.asStringList
    let c ← c.asStringList
    pure ⟨c, g⟩
  | _ => .error (.malformed "invalid type: expected struct BenchmarkSystemInfo")

end Json

/-- serde's `Serialize for std::time::Duration`: `{secs, nanos}`. -/
def serializeDuration (d : Duration) : Json :=
  .obj [("secs", .num (d.nanos / 1000000000)), ("nanos", .num (d.nanos % 1000000000))]

/-- serde's `Serialize for Option<String>`: `None` is `null`. -/
def serializeOptStr : Option String → Json
  | none => .null
  | some s => .str s

/-- Modelled from the spec: the derived serializer of the opaque
`BenchmarkSystemInfo` `{cpus, gpus}` inventory record. -/
def serializeSystemInfo (si : BenchmarkSystemInfo) : Json :=
  .obj [("cpus", .arr (si.cpus.map .str)), ("gpus", .arr (si.gpus.map .str))]

/-- `impl Serialize for BenchmarkRecord` (the `serialize_fields!` macro):
the flat ordered field list, durations rendered as integer microseconds and
`numSamples` regenerated from the raw duration count.  Note that
`results.raw.timing_method` is never serialized. -/
def serializeRecord (r : BenchmarkRecord) : List (String × Json) :=
  [("backend", .str r.backend),
   ("device", .str r.device),
   ("feature", .str r.feature),
   ("gitHash", .str r.results.git_hash),
   ("burnVersion", .str r.burn_version),
   ("max", .num r.results.computed.max.asMicros),
   ("mean", .num r.results.computed.mean.asMicros),
   ("median", .num r.results.computed.median.asMicros),
   ("min", .num r.results.computed.min.asMicros),
   ("name", .str r.results.name),
   ("numSamples", .num r.results.raw.durations.length),
   ("options", serializeOptStr r.results.options),
   ("rawDurations", .arr (r.results.raw.durations.map serializeDuration)),
   ("systemInfo", serializeSystemInfo r.system_info),
   ("shapes", .arr (r.results.shapes.map fun s => .arr (s.map Json.num))),
   ("timestamp", .num r.results.timestamp),
   ("variance", .num r.results.computed.variance.asMicros)]

/-- One iteration of the `while let Some(key) = map.next_key::<String>()`
loop of `BenchmarkRecordVisitor::visit_map`: dispatch on the key (the Rust
`match` on `key.as_str()`, written as the equivalent chain of comparisons),
parse the value with the matching `next_value` type, store it into the
record under construction; a present `numSamples` is parsed and discarded;
any other key hits `panic!("Unexpected Key: {}", key)`. -/
def visitEntry (br : BenchmarkRecord) (key : String) (v : Json) :
    Except DecodeError BenchmarkRecord :=
  if key = "backend" then do pure { br with backend := ← v.asString }
  else if key = "device" then do pure { br with device := ← v.asString }
  else if key = "feature" then do pure { br with feature := ← v.asString }
  else if key = "burnVersion" then do pure { br with burn_version := ← v.asString }
  else if key = "gitHash" then do pure { br with results.git_hash := ← v.asString }
  else if key = "name" then do pure { br with results.name := ← v.asString }
  else if key = "max" then do
    pure { br with results.computed.max := Duration.fromMicros (← v.asU64) }
  else if key = "mean" then do
    pure { br with results.computed.mean := Duration.fromMicros (← v.asU64) }
  else if key = "median" then do
    pure { br with results.computed.median := Duration.fromMicros (← v.asU64) }
  else if key = "min" then do
    pure { br with results.computed.min := Duration.fromMicros (← v.asU64) }
  else if key = "numSamples" then do
    let _ ← v.asUsize
    pure br
  else if key = "options" then do pure { br with results.options := ← v.asOptString }
  else if key = "rawDurations" then do
    pure { br with results.raw.durations := ← v.asDurationList }
  else if key = "shapes" then do pure { br with results.shapes := ← v.asShapes }
  else if key = "systemInfo" then do pure { br with system_info := ← v.asSystemInfo }
  else if key = "timestamp" then do pure { br with results.timestamp := ← v.asU128 }
  else if key = "variance" then do
    pure { br with results.computed.variance := Duration.fromMicros (← v.asU64) }
  else .error (.panicked ("Unexpected Key: " ++ key))

/-- `BenchmarkRecordVisitor::visit_map`: fold the entry sequence over a
`BenchmarkRecord::default()` scaffold. -/
def visitMap (entries : List (String × Json)) : Except DecodeError BenchmarkRecord :=
  entries.foldlM (fun br p => visitEntry br p.1 p.2) default

/-- `impl Deserialize for BenchmarkRecord`: `deserialize_map` with the
visitor — the input must be a JSON object. -/
def deserializeRecord : Json → Except DecodeError BenchmarkRecord
  | .obj fields => visitMap fields
  | _ => .error (.malformed "invalid type: expected a map")

/-- The record produced by decoding the encoding of `r`: the five computed
statistics are truncated to whole microseconds (encode renders them with
`as_micros`, decode reads them with `from_micros`) and the never-serialized
`timing_method` falls back to its default. -/
def truncateRecord (r : BenchmarkRecord) : BenchmarkRecord :=
  { r with
    results.raw.timing_method := TimingMethod.System
    results.computed.mean := Duration.fromMicros r.results.computed.mean.asMicros
    results.computed.median := Duration.fromMicros r.results.computed.median.asMicros
    results.computed.variance := Duration.fromMicros r.results.computed.variance.asMicros
    results.computed.min := Duration.fromMicros r.results.computed.min.asMicros
    results.computed.max := Duration.fromMicros r.results.computed.max.asMicros }

/-- The success value of an `Except`, with a fallback for the error case. -/
def getOk {ε α : Type} (e : Except ε α) (d : α) : α :=
  match e with
  | .ok a => a
  | .error _ => d

/-- Whether `visit_map` accepts the entry `(key, v)`: the key is one of the
schema keys and `v` parses at that key's type (`numSamples` included — its
value is parsed as `usize` before being discarded). -/
def entryOk (key : String) (v : Json) : Bool :=
  if key = "backend" then v.asString.isOk
  else if key = "device" then v.asString.isOk
  else if key = "feature" then v.asString.isOk
  else if key = "burnVersion" then v.asString.isOk
  else if key = "gitHash" then v.asString.isOk
  else if key = "name" then v.asString.isOk
  else if key = "max" then v.asU64.isOk
  else if key = "mean" then v.asU64.isOk
  else if key = "median" then v.asU64.isOk
  else if key = "min" then v.asU64.isOk
  else if key = "numSamples" then v.asUsize.isOk
  else if key = "options" then v.asOptString.isOk
  else if key = "rawDurations" then v.asDurationList.isOk
  else if key = "shapes" then v.asShapes.isOk
  else if key = "systemInfo" then v.asSystemInfo.isOk
  else if key = "timestamp" then v.asU128.isOk
  else if key = "variance" then v.asU64.isOk
  else false

/-- The total effect of one accepted `visit_map` entry on the record under
construction (what `visitEntry` does when it succeeds; leaves the record
unchanged when the entry would be rejected). -/
def applyEntry (br : BenchmarkRecord) (key : String) (v : Json) : BenchmarkRecord :=
  if key = "backend" then getOk (v.asString.map fun s => { br with backend := s }) br
  else if key = "device" then getOk (v.asString.map fun s => { br with device := s }) br
  else if key = "feature" then getOk (v.asString.map fun s => { br with feature := s }) br
  else if key = "burnVersion" then
    getOk (v.asString.map fun s => { br with burn_version := s }) br
  else if key = "gitHash" then
    getOk (v.asString.map fun s => { br with results.git_hash := s }) br
  else if key = "name" then getOk (v.asString.map fun s => { br with results.name := s }) br
  else if key = "max" then
    getOk (v.asU64.map fun n => { br with results.computed.max := Duration.fromMicros n }) br
  else if key = "mean" then
    getOk (v.asU64.map fun n => { br with results.computed.mean := Duration.fromMicros n }) br
  else if key = "median" then
    getOk (v.asU64.map fun n => { br with results.computed.median := Duration.fromMicros n }) br
  else if key = "min" then
    getOk (v.asU64.map fun n => { br with results.computed.min := Duration.fromMicros n }) br
  else if key = "numSamples" then br
  else if key = "options" then
    getOk (v.asOptString.map fun o => { br with results.options := o }) br
  else if key = "rawDurations" then
    getOk (v.asDurationList.map fun ds => { br with results.raw.durations := ds }) br
  else if key = "shapes" then
    getOk (v.asShapes.map fun ss => { br with results.shapes := ss }) br
  else if key = "systemInfo" then
    getOk (v.asSystemInfo.map fun si => { br with system_info := si }) br
  else if key = "timestamp" then
    getOk (v.asU128.map fun t => { br with results.timestamp := t }) br
  else if key = "variance" then
    getOk (v.asU64.map fun n =>
      { br with results.computed.variance := Duration.fromMicros n }) br
  else br

/-- The keys recognized by `visit_map` (every other key panics). -/
def schemaKeys : List String :=
  ["backend", "device", "feature", "burnVersion", "gitHash", "name", "max", "mean",
   "median", "min", "numSamples", "options", "rawDurations", "shapes", "systemInfo",
   "timestamp", "variance"]

/-- Parse an optional looked-up value, with a fallback when the key is absent
or its value does not parse. -/
def okOrD {α : Type} (parse : Json → Except DecodeError α) (o : Option Json) (d : α) : α :=
  match o with
  | some v => getOk (parse v) d
  | none => d

/-- The record that `visit_map` builds over the scaffold `br` from an entry
list with pairwise-distinct keys, described field-by-field: each schema field
takes the parsed value of its (first) entry when present, and keeps the
scaffold's value otherwise; `timing_method` is never touched. -/
def mergeRecord (br : BenchmarkRecord) (l : List (String × Json)) : BenchmarkRecord :=
  { backend := okOrD Json.asString (l.lookup "backend") br.backend
    device := okOrD Json.asString (l.lookup "device") br.device
    feature := okOrD Json.asString (l.lookup "feature") br.feature
    burn_version := okOrD Json.asString (l.lookup "burnVersion") br.burn_version
    system_info := okOrD Json.asSystemInfo (l.lookup "systemInfo") br.system_info
    results :=
      { raw :=
          { timing_method := br.results.raw.timing_method
            durations := okOrD Json.asDurationList (l.lookup "rawDurations")
              br.results.raw.durations }
        computed :=
          { mean := okOrD (fun v => v.asU64.map Duration.fromMicros) (l.lookup "mean")
              br.results.computed.mean
            median := okOrD (fun v => v.asU64.map Duration.fromMicros) (l.lookup "median")
              br.results.computed.median
            variance := okOrD (fun v => v.asU64.map Duration.fromMicros) (l.lookup "variance")
              br.results.computed.variance
            min := okOrD (fun v => v.asU64.map Duration.fromMicros) (l.lookup "min")
              br.results.computed.min
            max := okOrD (fun v => v.asU64.map Duration.fromMicros) (l.lookup "max")
              br.results.computed.max }
        git_hash := okOrD Json.asString (l.lookup "gitHash") br.results.git_hash
        name := okOrD Json.asString (l.lookup "name") br.results.name
        options := okOrD Json.asOptString (l.lookup "options") br.results.options
        shapes := okOrD Json.asShapes (l.lookup "shapes") br.results.shapes
        timestamp := okOrD Json.asU128 (l.lookup "timestamp") br.results.timestamp } }

/-- The bounds under which every serialized field of a record parses back at
the deserializer's integer types: the five statistics fit in u64 when
rendered as microseconds, the sample count and shape entries fit in
usize/u64, each raw duration's second count fits in u64 (Rust-representable),
and the timestamp fits in u128. -/
def RecordBounds (r : BenchmarkRecord) : Prop :=
  r.results.computed.mean.asMicros < 2 ^ 64 ∧
  r.results.computed.median.asMicros < 2 ^ 64 ∧
  r.results.computed.variance.asMicros < 2 ^ 64 ∧
  r.results.computed.min.asMicros < 2 ^ 64 ∧
  r.results.computed.max.asMicros < 2 ^ 64 ∧
  r.results.raw.durations.length < 2 ^ 64 ∧
  (∀ d ∈ r.results.raw.durations, d.nanos < 2 ^ 64 * 1000000000) ∧
  (∀ s ∈ r.results.shapes, ∀ n ∈ s, n < 2 ^ 64) ∧
  r.results.timestamp < 2 ^ 128

instance (r : BenchmarkRecord) : Decidable (RecordBounds r) := by
  unfold RecordBounds
  infer_instance

/-! ## Persistence layer and upload client

`save_records` interacts with the filesystem and the network; its effects are
embedded as an explicit action trace, and `upload_record`'s network send is an
explicit environment function so that every transport outcome is covered. -/

/-- An observable effect of `save_records` / `upload_record`.  Paths are
component lists (`PathBuf::join`); `writeJsonPretty` is
`serde_json::to_writer_pretty` of the given JSON document to a freshly
created file; `appendLine` is an append-create write of one line. -/
inductive FsAction where
  | createDirAll (path : List String)
  | writeJsonPretty (path : List String) (content : Json)
  | appendLine (path : List String) (line : String)
  | httpPost (url : String) (token : String) (body : Json)

/-- `dirs::home_dir().join(".cache").join("burn").join("burnbench")`. -/
def cacheDir (home : List String) : List String :=
  home ++ [".cache", "burn", "burnbench"]

/-- `PathBuf::to_string_lossy` of a component path. -/
def pathString (path : List String) : String := String.intercalate "/" path

/-- The `for record in records` loop body of `save_records`, iterated: for
each record, write `bench_<name>_<timestamp>.json` (pretty-printed JSON of the
flat serialization) into the cache directory, append the file path to
`benchmark_results.txt`, and, when a URL is configured, hand the record to the
upload client.  Returns the effect trace in order, paired with the message of
the panic that aborted the loop, if any
(`token.expect("An auth token should be provided.")` when a URL is configured
without a token — the current record's write and append have already
happened by then). -/
def saveRecordsLoop (home : List String) (url token : Option String) :
    List BenchmarkRecord → List FsAction × Option String
  | [] => ([], none)
  | record :: rest =>
    let file_name := "bench_" ++ record.results.name ++ "_" ++
      toString record.results.timestamp ++ ".json"
    let file_path := cacheDir home ++ [file_name]
    let write := FsAction.writeJsonPretty file_path (.obj (serializeRecord record))
    let append := FsAction.appendLine (cacheDir home ++ ["benchmark_results.txt"])
      (pathString file_path)
    match url with
    | none =>
      let (acts, panicMsg) := saveRecordsLoop home url token rest
      (write :: append :: acts, panicMsg)
    | some upload_url =>
      match token with
      | none => ([write, append], some "An auth token should be provided.")
      | some tok =>
        let (acts, panicMsg) := saveRecordsLoop home url token rest
        (write :: append ::
          FsAction.httpPost upload_url tok (.obj (serializeRecord record)) :: acts, panicMsg)

/-- `fn save_records(records, url, token)`: ensure the cache directory exists
(creating it recursively when the `cache_dir.exists()` probe, `dirExists`,
is false), then run the per-record loop.  The result is the ordered effect
trace and the panic that aborted it, if any. -/
def save_records (home : List String) (dirExists : Bool)
    (records : List BenchmarkRecord) (url : Option String) (token : Option String) :
    List FsAction × Option String :=
  let dirActions : List FsAction :=
    if dirExists then [] else [.createDirAll (cacheDir home)]
  let (acts, panicMsg) := saveRecordsLoop home url token records
  (dirActions ++ acts, panicMsg)

/-- The HTTP request built by `upload_record`. -/
structure HttpRequest where
  url : String
  userAgent : String
  accept : String
  authorization : String
  body : Json

/-- What `client.post(..).send()` can yield: an HTTP response with some
status code, or a transport-level failure (`Err`). -/
inductive SendResult where
  | response (status : ℕ)
  | transportError (msg : String)

/-- The reported outcome of an upload attempt. -/
inductive UploadOutcome where
  /-- "Results shared successfully." -/
  | shared
  /-- "Failed to share results. Status: {status}" -/
  | failed (status : ℕ)
deriving DecidableEq, Repr

/-- `reqwest::StatusCode::is_success`: `200 ≤ status < 300`. -/
def isSuccessStatus (status : ℕ) : Bool := 200 ≤ status && status < 300

/-- `fn upload_record(record, token, url)`: build the authenticated POST of
the serialized record and send it once; `send` is the network environment.
`.send().expect("Request should be sent successfully.")` panics on a
transport-level failure (modeled as `Except.error` with the panic message);
otherwise the response status alone decides the printed outcome. -/
def upload_record (record : BenchmarkRecord) (token : String) (url : String)
    (send : HttpRequest → SendResult) : Except String UploadOutcome :=
  let request : HttpRequest :=
    { url := url
      userAgent := "burnbench"
      accept := "application/json"
      authorization := "Bearer " ++ token
      body := .obj (serializeRecord record) }
  match send request with
  | .transportError _ => .error "Request should be sent successfully."
  | .response status =>
    if isSuccessStatus status then .ok .shared else .ok (.failed status)

/-! ## State-threaded statistics (for the frame property)

The statistics methods take `&self`; to make the frame property expressible,
they are also embedded in state-passing style, returning the value of `self`
as it stands after the call.  `min_max_median_durations` clones the sample
list and sorts only the clone. -/

/-- State-threaded `BenchmarkDurations::min_max_median_durations`: the method
body only reads `self` (the sort happens on `self.durations.clone()`), so the
method's effect on `self` is the identity. -/
def BenchmarkDurations.min_max_median_durationsSt (self : BenchmarkDurations) :
    Option (Duration × Duration × Duration) × BenchmarkDurations :=
  (self.min_max_median_durations, self)

/-- State-threaded `BenchmarkDurations::mean_duration`: only reads `self`. -/
def BenchmarkDurations.mean_durationSt (self : BenchmarkDurations) :
    Option Duration × BenchmarkDurations :=
  (self.mean_duration, self)

/-- State-threaded `BenchmarkDurations::variance_duration`: only reads
`self`. -/
def BenchmarkDurations.variance_durationSt (self : BenchmarkDurations) (mean : Duration) :
    Option Duration × BenchmarkDurations :=
  (self.variance_duration mean, self)

/-- State-threaded `BenchmarkComputations::new`: the three statistics calls
in source order, each receiving the `durations` value left by the previous
call. -/
def BenchmarkComputations.newSt (durations : BenchmarkDurations) :
    Option BenchmarkComputations × BenchmarkDurations :=
  let (meanRes, d₁) := durations.mean_durationSt
  match meanRes with
  | none => (none, d₁)
  | some mean =>
    let (mmmRes, d₂) := d₁.min_max_median_durationsSt
    match mmmRes with
    | none => (none, d₂)
    | some (min, max, median) =>
      let (varRes, d₃) := d₂.variance_durationSt mean
      match varRes with
      | none => (none, d₃)
      | some variance => (some { mean, median, min, max, variance }, d₃)

/-! ## Concrete sample values used in the verified examples -/

/-- The computed statistics of the sample sequence `[10s, 20s, 30s, 40s]`. -/
def sampleStats : BenchmarkComputations :=
  { mean := ⟨25000000000⟩, median := ⟨30000000000⟩, variance := ⟨125000000000⟩,
    min := ⟨10000000000⟩, max := ⟨40000000000⟩ }

/-- A fully populated record whose computed statistics are exactly those the
statistics engine derives from its single raw sample of 1500ns (1.5μs); all
fields are Rust-representable. -/
def sampleRecord : BenchmarkRecord :=
  { backend := "candle", device := "Cuda(0)", feature := "wgpu-fusion",
    burn_version := "0.18.0", system_info := ⟨["cpu0"], ["gpu0"]⟩,
    results :=
      { raw := ⟨TimingMethod.Device, [⟨1500⟩]⟩,
        computed := { mean := ⟨1500⟩, median := ⟨1500⟩, variance := ⟨0⟩,
                      min := ⟨1500⟩, max := ⟨1500⟩ },
        git_hash := "02d37011ab4dc773286e5983c09cde61f95ba4b5", name := "unary",
        options := none, shapes := [[32, 512, 1024]], timestamp := 1710208069697 } }

/-! ## Helper lemmas -/

theorem head?_eq_some_headD {α : Type} [Inhabited α] (l : List α) (h : l ≠ []) :
    l.head? = some (l.headD default) := by
  cases l with
  | nil => exact absurd rfl h
  | cons a t => rfl

theorem getLast?_eq_some_getLastD {α : Type} [Inhabited α] (l : List α) (h : l ≠ []) :
    l.getLast? = some (l.getLastD default) := by
  induction l with
  | nil => exact absurd rfl h
  | cons a t ih =>
    cases t with
    | nil => rfl
    | cons b t₂ =>
      rw [List.getLast?_cons_cons, ih (by simp)]
      rfl

theorem getElem?_eq_some_getD {α : Type} [Inhabited α] (l : List α) (i : ℕ)
    (h : i < l.length) : l[i]? = some (l.getD i default) := by
  rw [List.getD_eq_getElem?_getD, List.getElem?_eq_getElem h]
  rfl

theorem getD_mem {α : Type} [Inhabited α] {l : List α} {i : ℕ} (h : i < l.length) :
    l.getD i default ∈ l := by
  rw [List.getD_eq_getElem?_getD, List.getElem?_eq_getElem h]
  exact l.getElem_mem h

theorem sorted_headD_le {α : Type} [LinearOrder α] [Inhabited α] {l : List α}
    (hs : List.Sorted (· ≤ ·) l) {x : α} (hx : x ∈ l) : l.headD default ≤ x := by
  cases l with
  | nil => exact absurd hx (by simp)
  | cons a t =>
    rcases List.mem_cons.mp hx with rfl | hx₂
    · exact le_refl _
    · exact List.rel_of_sorted_cons hs x hx₂

theorem le_sorted_getLastD {α : Type} [LinearOrder α] [Inhabited α] :
    ∀ {l : List α}, List.Sorted (· ≤ ·) l → ∀ x ∈ l, x ≤ l.getLastD default := by
  intro l
  induction l with
  | nil => intro _ x hx; exact absurd hx (by simp)
  | cons a t ih =>
    intro hs x hx
    cases t with
    | nil =>
      rcases List.mem_cons.mp hx with rfl | hx₂
      · exact le_refl _
      · exact absurd hx₂ (by simp)
    | cons b t₂ =>
      have hlast : (a :: b :: t₂).getLastD default = (b :: t₂).getLastD default := by
        rw [List.getLastD_eq_getLast?, List.getLastD_eq_getLast?, List.getLast?_cons_cons]
      rw [hlast]
      rcases List.mem_cons.mp hx with rfl | hx₂
      · exact le_trans (List.rel_of_sorted_cons hs b (by simp))
          (ih hs.of_cons b (by simp))
      · exact ih hs.of_cons x hx₂

/-- `min_max_median_durations` on a non-empty sample list: the head, last and
`length / 2`-indexed element of the ascending insertion sort of the samples. -/
theorem min_max_median_eq (self : BenchmarkDurations) (h : self.durations ≠ []) :
    self.min_max_median_durations =
      some ((List.insertionSort (· ≤ ·) self.durations).headD default,
            (List.insertionSort (· ≤ ·) self.durations).getLastD default,
            (List.insertionSort (· ≤ ·) self.durations).getD
              ((List.insertionSort (· ≤ ·) self.durations).length / 2) default) := by
  have hne : List.insertionSort (· ≤ ·) self.durations ≠ [] := by
    intro hcon
    have hlen := List.length_insertionSort (α := Duration) (· ≤ ·) self.durations
    rw [hcon] at hlen
    exact h (List.eq_nil_of_length_eq_zero hlen.symm)
  have hpos : 0 < (List.insertionSort (· ≤ ·) self.durations).length :=
    List.length_pos.mpr hne
  simp only [BenchmarkDurations.min_max_median_durations]
  rw [head?_eq_some_headD _ hne, getLast?_eq_some_getLastD _ hne,
    getElem?_eq_some_getD _ _ (Nat.div_lt_self hpos (by norm_num))]
  rfl

/-- `mean_duration` when the `as u32`-cast sample count is non-zero:
truncating nanosecond division of the nanosecond sum by the cast count. -/
theorem mean_duration_eq (self : BenchmarkDurations)
    (h : self.durations.length % 2 ^ 32 ≠ 0) :
    self.mean_duration =
      some ⟨(self.durations.map Duration.nanos).sum /
        (self.durations.length % 2 ^ 32)⟩ := by
  have h2 : self.durations.length % 4294967296 ≠ 0 := by simpa using h
  simp [BenchmarkDurations.mean_duration, Duration.divU32, sumDurations, h2]

/-- `variance_duration` when the `as u32`-cast sample count is non-zero. -/
theorem variance_duration_eq (self : BenchmarkDurations) (mean : Duration)
    (h : self.durations.length % 2 ^ 32 ≠ 0) :
    self.variance_duration mean =
      some ⟨((self.durations.map fun duration =>
          Duration.fromSecsRat ((duration.asSecsRat - mean.asSecsRat) *
            (duration.asSecsRat - mean.asSecsRat))).map Duration.nanos).sum /
        (self.durations.length % 2 ^ 32)⟩ := by
  have h2 : self.durations.length % 4294967296 ≠ 0 := by simpa using h
  simp [BenchmarkDurations.variance_duration, Duration.divU32, sumDurations, h2]

theorem sorted_replicate (n : ℕ) (d : Duration) :
    List.Sorted (· ≤ ·) (List.replicate n d) := by
  induction n with
  | zero => exact List.sorted_nil
  | succ m ih =>
    rw [List.replicate_succ]
    refine List.Pairwise.cons ?_ ih
    intro b hb
    rw [List.eq_of_mem_replicate hb]

theorem headD_replicate (n : ℕ) (d dflt : Duration) :
    (List.replicate (n + 1) d).headD dflt = d := rfl

theorem getLastD_replicate (n : ℕ) (d dflt : Duration) :
    (List.replicate (n + 1) d).getLastD dflt = d := by
  induction n with
  | zero => rfl
  | succ m ih =>
    rw [List.replicate_succ, List.getLastD_eq_getLast?, List.replicate_succ,
      List.getLast?_cons_cons, ← List.replicate_succ, ← List.getLastD_eq_getLast?]
    exact ih

theorem getD_replicate {n i : ℕ} (d dflt : Duration) (h : i < n) :
    (List.replicate n d).getD i dflt = d := by
  rw [List.getD_eq_getElem?_getD, List.getElem?_eq_getElem (by simpa using h)]
  simp

theorem variance_replicate_one_sec (N : ℕ) (hN : N % 2 ^ 32 = 1) (tm : TimingMethod) :
    BenchmarkDurations.variance_duration
      ⟨tm, List.replicate N (Duration.fromSecs 1)⟩ ⟨0⟩ = some ⟨N * 1000000000⟩ ∧
    (((List.replicate N (Duration.fromSecs 1)).map fun sample =>
        Duration.fromSecsRat ((sample.asSecsRat - (⟨0⟩ : Duration).asSecsRat) *
          (sample.asSecsRat - (⟨0⟩ : Duration).asSecsRat))).map Duration.nanos).sum /
      (List.replicate N (Duration.fromSecs 1)).length = 1000000000 := by
  have hN0 : 0 < N := by
    rcases Nat.eq_zero_or_pos N with h0 | h0
    · rw [h0] at hN; simp at hN
    · exact h0
  have hsq : Duration.fromSecsRat
      (((Duration.fromSecs 1).asSecsRat - (⟨0⟩ : Duration).asSecsRat) *
        ((Duration.fromSecs 1).asSecsRat - (⟨0⟩ : Duration).asSecsRat)) =
      ⟨1000000000⟩ := by
    simp only [Duration.fromSecs, Duration.asSecsRat, Duration.fromSecsRat]
    norm_num [Int.toNat]
  have hmap : ((List.replicate N (Duration.fromSecs 1)).map fun sample =>
      Duration.fromSecsRat ((sample.asSecsRat - (⟨0⟩ : Duration).asSecsRat) *
        (sample.asSecsRat - (⟨0⟩ : Duration).asSecsRat))) =
      List.replicate N (⟨1000000000⟩ : Duration) := by
    rw [List.map_replicate, hsq]
  have hsum : ((List.replicate N (⟨1000000000⟩ : Duration)).map
      Duration.nanos).sum = N * 1000000000 := by
    rw [List.map_replicate]
    exact List.sum_const_nat _ _
  constructor
  · rw [variance_duration_eq _ _ (by
      show (List.replicate N (Duration.fromSecs 1)).length % 2 ^ 32 ≠ 0
      rw [List.length_replicate, hN]; norm_num)]
    rw [show (⟨tm, List.replicate N (Duration.fromSecs 1)⟩ :
        BenchmarkDurations).durations = List.replicate N (Duration.fromSecs 1) from rfl]
    rw [hmap, hsum, List.length_replicate, hN, Nat.div_one]
  · rw [hmap, hsum, List.length_replicate]
    exact Nat.mul_div_cancel_left _ hN0

/-! ## Claim theorems: the statistics engine -/

/-- Counterexample for C4: the source divides the summed squares by
`self.durations.len() as u32`, a wrapping cast, not by `n`.  On `2^32 + 1`
samples of 1s with mean 0s, the cast count wraps to 1, so the program returns
the full sum of squares, `(2^32 + 1)` seconds — while the claimed population
variance `sum((sample - mean)^2) / n` of the same input is 1 second. -/
theorem variance_wrapped_count_not_population :
    BenchmarkDurations.variance_duration
      ⟨TimingMethod.System, List.replicate (2 ^ 32 + 1) (Duration.fromSecs 1)⟩ ⟨0⟩ =
      some ⟨(2 ^ 32 + 1) * 1000000000⟩ ∧
    (((List.replicate (2 ^ 32 + 1) (Duration.fromSecs 1)).map fun sample =>
        Duration.fromSecsRat ((sample.asSecsRat - (⟨0⟩ : Duration).asSecsRat) *
          (sample.asSecsRat - (⟨0⟩ : Duration).asSecsRat))).map Duration.nanos).sum /
      (List.replicate (2 ^ 32 + 1) (Duration.fromSecs 1)).length = 1000000000 ∧
    (2 ^ 32 + 1) * 1000000000 ≠ 1000000000 := by
  have h := variance_replicate_one_sec (2 ^ 32 + 1) (by norm_num) TimingMethod.System
  exact ⟨h.1, h.2, by norm_num⟩

/-- C4 (amended): for every non-empty sample sequence of fewer than `2^32`
samples (the `as u32` cast of the count is then the identity) and any mean,
the variance statistic is the population variance `sum((sample - mean)^2) / n`,
each subtraction performed in floating-point seconds (modeled exactly) and the
squared difference converted back to a duration before summing and dividing by
`n` (no `n-1` correction); in particular the variance of `[10s,20s,30s,40s,50s]`
at its mean (30s) is the duration 200s.  For counts of `2^32` or more the
divisor is the count taken mod `2^32` (a division-by-zero panic when that
wraps to zero). -/
theorem variance_is_population_variance (tm : TimingMethod) (x : Duration)
    (xs : List Duration) (mean : Duration) (h : (x :: xs).length < 2 ^ 32) :
    BenchmarkDurations.variance_duration ⟨tm, x :: xs⟩ mean =
      some ⟨(((x :: xs).map fun sample =>
          Duration.fromSecsRat ((sample.asSecsRat - mean.asSecsRat) *
            (sample.asSecsRat - mean.asSecsRat))).map Duration.nanos).sum /
        (x :: xs).length⟩ ∧
    BenchmarkDurations.mean_duration
      ⟨TimingMethod.System, [Duration.fromSecs 10, Duration.fromSecs 20, Duration.fromSecs 30,
        Duration.fromSecs 40, Duration.fromSecs 50]⟩ = some (Duration.fromSecs 30) ∧
    BenchmarkDurations.variance_duration
      ⟨TimingMethod.System, [Duration.fromSecs 10, Duration.fromSecs 20, Duration.fromSecs 30,
        Duration.fromSecs 40, Duration.fromSecs 50]⟩ (Duration.fromSecs 30) =
      some (Duration.fromSecs 200) := by
  have hmod : (x :: xs).length % 2 ^ 32 = (x :: xs).length := Nat.mod_eq_of_lt h
  refine ⟨?_, by decide, ?_⟩
  · have hcast : (⟨tm, x :: xs⟩ : BenchmarkDurations).durations.length % 2 ^ 32 ≠ 0 := by
      show (x :: xs).length % 2 ^ 32 ≠ 0
      rw [hmod]
      simp
    have he := variance_duration_eq ⟨tm, x :: xs⟩ mean hcast
    rwa [show (⟨tm, x :: xs⟩ : BenchmarkDurations).durations = x :: xs from rfl,
      hmod] at he
  · simp only [BenchmarkDurations.variance_duration, Duration.fromSecs, Duration.asSecsRat,
      Duration.fromSecsRat, sumDurations, Duration.divU32, List.map, List.sum]
    norm_num [Int.toNat]

/-- Witness for C4 at the concrete sample sequence `[10s,20s,30s,40s,50s]`
with its mean 30s. -/
theorem variance_is_population_variance_witness :
    BenchmarkDurations.variance_duration
      ⟨TimingMethod.System, Duration.fromSecs 10 :: [Duration.fromSecs 20,
        Duration.fromSecs 30, Duration.fromSecs 40, Duration.fromSecs 50]⟩
      (Duration.fromSecs 30) =
      some ⟨(((Duration.fromSecs 10 :: [Duration.fromSecs 20, Duration.fromSecs 30,
          Duration.fromSecs 40, Duration.fromSecs 50]).map fun sample =>
          Duration.fromSecsRat ((sample.asSecsRat - (Duration.fromSecs 30).asSecsRat) *
            (sample.asSecsRat - (Duration.fromSecs 30).asSecsRat))).map
          Duration.nanos).sum /
        (Duration.fromSecs 10 :: [Duration.fromSecs 20, Duration.fromSecs 30,
          Duration.fromSecs 40, Duration.fromSecs 50]).length⟩ ∧
    BenchmarkDurations.mean_duration
      ⟨TimingMethod.System, [Duration.fromSecs 10, Duration.fromSecs 20, Duration.fromSecs 30,
        Duration.fromSecs 40, Duration.fromSecs 50]⟩ = some (Duration.fromSecs 30) ∧
    BenchmarkDurations.variance_duration
      ⟨TimingMethod.System, [Duration.fromSecs 10, Duration.fromSecs 20, Duration.fromSecs 30,
        Duration.fromSecs 40, Duration.fromSecs 50]⟩ (Duration.fromSecs 30) =
      some (Duration.fromSecs 200) :=
  variance_is_population_variance TimingMethod.System (Duration.fromSecs 10)
    [Duration.fromSecs 20, Duration.fromSecs 30, Duration.fromSecs 40,
      Duration.fromSecs 50] (Duration.fromSecs 30) (by norm_num)

/-- C5: for every non-empty sample sequence, the median statistic is the
element at index `floor(n/2)` of the ascending-sorted samples (with min and
max its first and last elements); for the even-length `[10s,20s,30s,40s]`
this is the upper-middle element 30s, not an interpolated average. -/
theorem median_is_floor_half_of_sorted (tm : TimingMethod) (x : Duration)
    (xs : List Duration) :
    BenchmarkDurations.min_max_median_durations ⟨tm, x :: xs⟩ =
      some ((List.insertionSort (· ≤ ·) (x :: xs)).headD default,
            (List.insertionSort (· ≤ ·) (x :: xs)).getLastD default,
            (List.insertionSort (· ≤ ·) (x :: xs)).getD ((x :: xs).length / 2) default) ∧
    List.Sorted (· ≤ ·) (List.insertionSort (· ≤ ·) (x :: xs)) ∧
    (List.insertionSort (· ≤ ·) (x :: xs)).Perm (x :: xs) ∧
    BenchmarkDurations.min_max_median_durations
      ⟨TimingMethod.System, [Duration.fromSecs 10, Duration.fromSecs 20,
        Duration.fromSecs 30, Duration.fromSecs 40]⟩ =
      some (Duration.fromSecs 10, Duration.fromSecs 40, Duration.fromSecs 30) := by
  refine ⟨?_, List.sorted_insertionSort _ _, List.perm_insertionSort _ _, by decide⟩
  have h := min_max_median_eq ⟨tm, x :: xs⟩ (by simp)
  rwa [List.length_insertionSort] at h

/-- C7: on an empty sample sequence every statistic fails fast (the `unwrap`
of min/max/median and the division by a zero sample count both panic, modeled
as `none`), and no `BenchmarkComputations` value is produced. -/
theorem empty_samples_fail_fast (tm : TimingMethod) (mean : Duration) :
    BenchmarkDurations.min_max_median_durations ⟨tm, []⟩ = none ∧
    BenchmarkDurations.mean_duration ⟨tm, []⟩ = none ∧
    BenchmarkDurations.variance_duration ⟨tm, []⟩ mean = none ∧
    BenchmarkComputations.new ⟨tm, []⟩ = none :=
  ⟨rfl, rfl, rfl, rfl⟩

theorem computations_replicate_one_ns (n : ℕ) (hn : 0 < n)
    (hN : (n + 1) % 2 ^ 32 = 1) :
    (BenchmarkComputations.new
      ⟨TimingMethod.System, List.replicate (n + 1) ⟨1⟩⟩).isSome = true ∧
    ((BenchmarkComputations.new
      ⟨TimingMethod.System, List.replicate (n + 1) ⟨1⟩⟩).getD default).max <
      ((BenchmarkComputations.new
        ⟨TimingMethod.System, List.replicate (n + 1) ⟨1⟩⟩).getD default).mean := by
  have hmean : BenchmarkDurations.mean_duration
      ⟨TimingMethod.System, List.replicate (n + 1) ⟨1⟩⟩ = some ⟨n + 1⟩ := by
    rw [mean_duration_eq _ (by
      show (List.replicate (n + 1) (⟨1⟩ : Duration)).length % 2 ^ 32 ≠ 0
      rw [List.length_replicate, hN]; norm_num)]
    rw [show (⟨TimingMethod.System, List.replicate (n + 1) ⟨1⟩⟩ :
      BenchmarkDurations).durations = List.replicate (n + 1) ⟨1⟩ from rfl]
    rw [List.map_replicate, List.length_replicate, hN, List.sum_const_nat]
    simp
  have hsort : List.insertionSort (· ≤ ·)
      (List.replicate (n + 1) (⟨1⟩ : Duration)) =
      List.replicate (n + 1) ⟨1⟩ :=
    List.Sorted.insertionSort_eq (sorted_replicate _ _)
  have hmmm : BenchmarkDurations.min_max_median_durations
      ⟨TimingMethod.System, List.replicate (n + 1) ⟨1⟩⟩ =
      some (⟨1⟩, ⟨1⟩, ⟨1⟩) := by
    rw [min_max_median_eq _ (by simp)]
    rw [show (⟨TimingMethod.System, List.replicate (n + 1) ⟨1⟩⟩ :
      BenchmarkDurations).durations = List.replicate (n + 1) ⟨1⟩ from rfl, hsort]
    rw [List.length_replicate, headD_replicate, getLastD_replicate,
      getD_replicate _ _ (Nat.div_lt_self (Nat.succ_pos n) (by norm_num))]
  obtain ⟨v, hv⟩ : ∃ v, BenchmarkDurations.variance_duration
      ⟨TimingMethod.System, List.replicate (n + 1) ⟨1⟩⟩ ⟨n + 1⟩ = some v :=
    ⟨_, variance_duration_eq _ _ (by
      show (List.replicate (n + 1) (⟨1⟩ : Duration)).length % 2 ^ 32 ≠ 0
      rw [List.length_replicate, hN]; norm_num)⟩
  have hnew : BenchmarkComputations.new
      ⟨TimingMethod.System, List.replicate (n + 1) ⟨1⟩⟩ =
      some ⟨⟨n + 1⟩, ⟨1⟩, v, ⟨1⟩, ⟨1⟩⟩ := by
    simp [BenchmarkComputations.new, hmean, hmmm, hv]
  rw [hnew]
  refine ⟨rfl, ?_⟩
  rw [Duration.lt_def]
  show 1 < n + 1
  omega

/-- Counterexample for C6: the mean's divisor is the `as u32`-cast sample
count, so on `2^32 + 1` samples of 1ns the cast wraps to 1 and the
computation completes with mean `2^32 + 1` ns (≈ 4.29s), strictly greater
than the maximum sample of 1ns — `min ≤ mean ≤ max` fails. -/
theorem mean_exceeds_max_on_wrapped_count :
    (BenchmarkComputations.new
      ⟨TimingMethod.System, List.replicate (2 ^ 32 + 1) ⟨1⟩⟩).isSome = true ∧
    ((BenchmarkComputations.new
      ⟨TimingMethod.System, List.replicate (2 ^ 32 + 1) ⟨1⟩⟩).getD default).max <
      ((BenchmarkComputations.new
        ⟨TimingMethod.System, List.replicate (2 ^ 32 + 1) ⟨1⟩⟩).getD default).mean :=
  computations_replicate_one_ns (2 ^ 32) (by norm_num) (by norm_num)

/-- C6 (amended): for every non-empty sample sequence of fewer than `2^32`
samples (so the `as u32` cast of the count used as the mean's divisor is the
identity), the computed statistics satisfy `min ≤ median ≤ max` and
`min ≤ mean ≤ max`. -/
theorem computed_stats_bounded (tm : TimingMethod) (x : Duration) (xs : List Duration)
    (hlen : (x :: xs).length < 2 ^ 32) (c : BenchmarkComputations)
    (hc : BenchmarkComputations.new ⟨tm, x :: xs⟩ = some c) :
    c.min ≤ c.median ∧ c.median ≤ c.max ∧ c.min ≤ c.mean ∧ c.mean ≤ c.max := by
  have hne : (⟨tm, x :: xs⟩ : BenchmarkDurations).durations ≠ [] := by simp
  have hmod : (x :: xs).length % 2 ^ 32 = (x :: xs).length := Nat.mod_eq_of_lt hlen
  have hcast : (⟨tm, x :: xs⟩ : BenchmarkDurations).durations.length % 2 ^ 32 ≠ 0 := by
    show (x :: xs).length % 2 ^ 32 ≠ 0
    rw [hmod]
    simp
  simp only [BenchmarkComputations.new, mean_duration_eq _ hcast, min_max_median_eq _ hne,
    variance_duration_eq _ _ hcast, hmod, Option.bind_eq_bind, Option.some_bind,
    Option.pure_def] at hc
  have hc₂ := (Option.some_inj.mp hc).symm
  subst hc₂
  dsimp only
  set sorted := List.insertionSort (· ≤ ·) (x :: xs) with hsdef
  have hs : List.Sorted (· ≤ ·) sorted := List.sorted_insertionSort _ _
  have hperm : sorted.Perm (x :: xs) := List.perm_insertionSort _ _
  have hpos : 0 < sorted.length := by
    rw [List.length_insertionSort]; simp
  have hmedmem : sorted.getD (sorted.length / 2) default ∈ sorted :=
    getD_mem (Nat.div_lt_self hpos (by norm_num))
  refine ⟨sorted_headD_le hs hmedmem, le_sorted_getLastD hs _ hmedmem, ?_, ?_⟩
  · rw [Duration.le_def]
    dsimp only
    have hall : ∀ n ∈ (x :: xs).map Duration.nanos, (sorted.headD default).nanos ≤ n := by
      intro n hn
      rcases List.mem_map.mp hn with ⟨y, hy, rfl⟩
      exact (Duration.le_def _ _).mp (sorted_headD_le hs (hperm.mem_iff.mpr hy))
    have hsum := List.card_nsmul_le_sum ((x :: xs).map Duration.nanos) _ hall
    rw [smul_eq_mul, List.length_map] at hsum
    rw [Nat.le_div_iff_mul_le (by simp : 0 < (x :: xs).length), Nat.mul_comm]
    exact hsum
  · rw [Duration.le_def]
    dsimp only
    have hall : ∀ n ∈ (x :: xs).map Duration.nanos, n ≤ (sorted.getLastD default).nanos := by
      intro n hn
      rcases List.mem_map.mp hn with ⟨y, hy, rfl⟩
      exact (Duration.le_def _ _).mp (le_sorted_getLastD hs _ (hperm.mem_iff.mpr hy))
    have hsum := List.sum_le_card_nsmul ((x :: xs).map Duration.nanos) _ hall
    rw [smul_eq_mul, List.length_map] at hsum
    exact Nat.div_le_of_le_mul hsum

/-- Witness for C6 at the concrete sample sequence `[10s, 20s, 30s, 40s]`. -/
theorem computed_stats_bounded_witness :
    sampleStats.min ≤ sampleStats.median ∧ sampleStats.median ≤ sampleStats.max ∧
    sampleStats.min ≤ sampleStats.mean ∧ sampleStats.mean ≤ sampleStats.max :=
  computed_stats_bounded TimingMethod.System ⟨10000000000⟩
    [⟨20000000000⟩, ⟨30000000000⟩, ⟨40000000000⟩] (by norm_num) sampleStats (by
      have h1 : BenchmarkDurations.mean_duration
          ⟨TimingMethod.System, [⟨10000000000⟩, ⟨20000000000⟩, ⟨30000000000⟩,
            ⟨40000000000⟩]⟩ = some ⟨25000000000⟩ := by decide
      have h2 : BenchmarkDurations.min_max_median_durations
          ⟨TimingMethod.System, [⟨10000000000⟩, ⟨20000000000⟩, ⟨30000000000⟩,
            ⟨40000000000⟩]⟩ = some (⟨10000000000⟩, ⟨40000000000⟩, ⟨30000000000⟩) := by decide
      have h3 : BenchmarkDurations.variance_duration
          ⟨TimingMethod.System, [⟨10000000000⟩, ⟨20000000000⟩, ⟨30000000000⟩,
            ⟨40000000000⟩]⟩ ⟨25000000000⟩ = some ⟨125000000000⟩ := by
        simp only [BenchmarkDurations.variance_duration, sumDurations, Duration.divU32,
          Duration.asSecsRat, Duration.fromSecsRat, List.map, List.sum]
        norm_num [Int.toNat]
      simp [BenchmarkComputations.new, h1, h2, h3, sampleStats])

/-- C10: computing statistics never modifies the `BenchmarkDurations` value:
each `&self` statistics method, embedded state-threaded, returns `self`
unchanged (min/max/median sorts a clone of the samples), so after computing
all of `BenchmarkComputations` the sample sequence and its measurement order
are exactly as before; the sorted clone is a permutation of the samples. -/
theorem stats_leave_samples_unchanged (d : BenchmarkDurations) (mean : Duration) :
    d.mean_durationSt.2 = d ∧
    d.min_max_median_durationsSt.2 = d ∧
    (d.variance_durationSt mean).2 = d ∧
    (BenchmarkComputations.newSt d).2 = d ∧
    (BenchmarkComputations.newSt d).1 = BenchmarkComputations.new d ∧
    d.min_max_median_durationsSt.1 = d.min_max_median_durations ∧
    (List.insertionSort (· ≤ ·) d.durations).Perm d.durations := by
  refine ⟨rfl, rfl, rfl, ?_, ?_, rfl, List.perm_insertionSort _ _⟩ <;>
  · simp only [BenchmarkComputations.newSt, BenchmarkComputations.new,
      BenchmarkDurations.mean_durationSt, BenchmarkDurations.min_max_median_durationsSt,
      BenchmarkDurations.variance_durationSt]
    cases hm : d.mean_duration with
    | none => rfl
    | some mean₂ =>
      cases hmmm : d.min_max_median_durations with
      | none => rfl
      | some t =>
        obtain ⟨mn, mx, md⟩ := t
        dsimp only
        cases hv : d.variance_duration mean₂ with
        | none => simp [hv]
        | some v => simp [hv]

/-- Counterexample for C1: at a transport-level failure `upload_record` hits
`.send().expect("Request should be sent successfully.")` — a process-fatal
panic, not a reported non-fatal outcome. -/
theorem upload_transport_failure_is_fatal :
    upload_record sampleRecord "token" "https://example.org/v1/"
      (fun _ => SendResult.transportError "connection refused") =
      Except.error "Request should be sent successfully." := rfl

/-- C1 (amended): whenever the transport delivers an HTTP response, a
non-success status is a non-fatal reported failure and a success status is a
reported success — no panic; but a transport-level failure panics with the
`expect` message, aborting the process. -/
theorem upload_http_outcome_reported (record : BenchmarkRecord) (token url : String)
    (status : ℕ) (msg : String) :
    upload_record record token url (fun _ => SendResult.response status) =
      Except.ok (if isSuccessStatus status then UploadOutcome.shared
                 else UploadOutcome.failed status) ∧
    upload_record record token url (fun _ => SendResult.transportError msg) =
      Except.error "Request should be sent successfully." := by
  refine ⟨?_, rfl⟩
  by_cases h : isSuccessStatus status
  · simp [upload_record, h]
  · simp [upload_record, h]

/-- Counterexample for C8: the file written for the record named "unary" with
timestamp 1710208069697 is "bench_unary_1710208069697.json", not the exact
name "bench_unary_1710208069697" stated by the claim. -/
theorem record_file_name_has_json_suffix :
    save_records ["/home/user"] true [sampleRecord] none none =
      ([FsAction.writeJsonPretty
          (cacheDir ["/home/user"] ++ ["bench_unary_1710208069697.json"])
          (Json.obj (serializeRecord sampleRecord)),
        FsAction.appendLine (cacheDir ["/home/user"] ++ ["benchmark_results.txt"])
          (pathString (cacheDir ["/home/user"] ++ ["bench_unary_1710208069697.json"]))],
       none) ∧
    "bench_unary_1710208069697.json" ≠ "bench_unary_1710208069697" :=
  ⟨rfl, by decide⟩

/-- C8 (amended): for every persisted record, `save_records` emits (before
any upload effect and with no panic when no URL is configured) a
pretty-printed JSON write of the flat-serialized record to the file
`bench_<benchmark-name>_<timestamp-millis>.json` inside the cache directory,
the name derived deterministically from the benchmark name and the
millisecond timestamp. -/
theorem saveRecordsLoop_no_url_no_panic (home : List String) (token : Option String)
    (records : List BenchmarkRecord) :
    (saveRecordsLoop home none token records).2 = none := by
  induction records with
  | nil => rfl
  | cons a t ih => simpa [saveRecordsLoop] using ih

theorem record_written_to_cache_dir (home : List String) (dirExists : Bool)
    (records : List BenchmarkRecord) (r : BenchmarkRecord) (hr : r ∈ records) :
    FsAction.writeJsonPretty
        (cacheDir home ++
          ["bench_" ++ r.results.name ++ "_" ++ toString r.results.timestamp ++ ".json"])
        (Json.obj (serializeRecord r)) ∈ (save_records home dirExists records none none).1 ∧
    (save_records home dirExists records none none).2 = none := by
  constructor
  · simp only [save_records]
    refine List.mem_append.mpr (Or.inr ?_)
    induction records with
    | nil => exact absurd hr (by simp)
    | cons a t ih =>
      simp only [saveRecordsLoop]
      rcases List.mem_cons.mp hr with rfl | hmem
      · exact List.mem_cons_self _ _
      · exact List.mem_cons.mpr (Or.inr (List.mem_cons.mpr (Or.inr (ih hmem))))
  · simp [save_records, saveRecordsLoop_no_url_no_panic]

/-- Witness for C8 at a singleton record list. -/
theorem record_written_to_cache_dir_witness :
    FsAction.writeJsonPretty
        (cacheDir ["/home/user"] ++
          ["bench_" ++ sampleRecord.results.name ++ "_" ++
            toString sampleRecord.results.timestamp ++ ".json"])
        (Json.obj (serializeRecord sampleRecord)) ∈
      (save_records ["/home/user"] true [sampleRecord] none none).1 ∧
    (save_records ["/home/user"] true [sampleRecord] none none).2 = none :=
  record_written_to_cache_dir ["/home/user"] true [sampleRecord] sampleRecord
    (List.mem_singleton.mpr rfl)

theorem bind_pure_of_isOk {ε α β : Type} (e : Except ε α) (f : α → β) (d : β)
    (h : e.isOk = true) :
    (do let a ← e; pure (f a) : Except ε β) = .ok (getOk (e.map f) d) := by
  cases e with
  | error err => simp [Except.isOk, Except.toBool] at h
  | ok a => rfl

theorem entryOk_eq_false_of_not_mem {k : String} (v : Json) (hk : k ∉ schemaKeys) :
    entryOk k v = false := by
  have h1 : ¬ k = "backend" := fun h => hk (by rw [h]; decide)
  have h2 : ¬ k = "device" := fun h => hk (by rw [h]; decide)
  have h3 : ¬ k = "feature" := fun h => hk (by rw [h]; decide)
  have h4 : ¬ k = "burnVersion" := fun h => hk (by rw [h]; decide)
  have h5 : ¬ k = "gitHash" := fun h => hk (by rw [h]; decide)
  have h6 : ¬ k = "name" := fun h => hk (by rw [h]; decide)
  have h7 : ¬ k = "max" := fun h => hk (by rw [h]; decide)
  have h8 : ¬ k = "mean" := fun h => hk (by rw [h]; decide)
  have h9 : ¬ k = "median" := fun h => hk (by rw [h]; decide)
  have h10 : ¬ k = "min" := fun h => hk (by rw [h]; decide)
  have h11 : ¬ k = "numSamples" := fun h => hk (by rw [h]; decide)
  have h12 : ¬ k = "options" := fun h => hk (by rw [h]; decide)
  have h13 : ¬ k = "rawDurations" := fun h => hk (by rw [h]; decide)
  have h14 : ¬ k = "shapes" := fun h => hk (by rw [h]; decide)
  have h15 : ¬ k = "systemInfo" := fun h => hk (by rw [h]; decide)
  have h16 : ¬ k = "timestamp" := fun h => hk (by rw [h]; decide)
  have h17 : ¬ k = "variance" := fun h => hk (by rw [h]; decide)
  unfold entryOk
  rw [if_neg h1, if_neg h2, if_neg h3, if_neg h4, if_neg h5, if_neg h6, if_neg h7,
    if_neg h8, if_neg h9, if_neg h10, if_neg h11, if_neg h12, if_neg h13, if_neg h14,
    if_neg h15, if_neg h16, if_neg h17]

theorem entryOk_key_mem {k : String} {v : Json} (h : entryOk k v = true) :
    k ∈ schemaKeys := by
  by_contra hk
  rw [entryOk_eq_false_of_not_mem v hk] at h
  exact absurd h (by decide)

set_option maxHeartbeats 1000000 in
theorem visitEntry_eq_applyEntry (br : BenchmarkRecord) (k : String) (v : Json)
    (h : entryOk k v = true) :
    visitEntry br k v = .ok (applyEntry br k v) := by
  have hk : k ∈ schemaKeys := entryOk_key_mem h
  simp only [schemaKeys, List.mem_cons, List.not_mem_nil, or_false] at hk
  rcases hk with rfl|rfl|rfl|rfl|rfl|rfl|rfl|rfl|rfl|rfl|rfl|rfl|rfl|rfl|rfl|rfl|rfl <;>
    first
      | exact bind_pure_of_isOk _ _ _ (by simpa [entryOk] using h)
      | (refine Eq.trans (bind_pure_of_isOk _ (fun _ => br) br
            (by simpa [entryOk] using h)) ?_
         cases Json.asUsize v <;> rfl)

theorem visitMap_foldl (l : List (String × Json)) (br : BenchmarkRecord)
    (h : ∀ p ∈ l, entryOk p.1 p.2 = true) :
    l.foldlM (fun b p => visitEntry b p.1 p.2) br =
      .ok (l.foldl (fun b p => applyEntry b p.1 p.2) br) := by
  induction l generalizing br with
  | nil => rfl
  | cons p t ih =>
    show visitEntry br p.1 p.2 >>=
        (fun b => t.foldlM (fun b q => visitEntry b q.1 q.2) b) = _
    rw [visitEntry_eq_applyEntry br p.1 p.2 (h p (by simp))]
    show t.foldlM (fun b q => visitEntry b q.1 q.2) (applyEntry br p.1 p.2) = _
    rw [ih _ (fun q hq => h q (by simp [hq]))]
    rfl

theorem lookup_eq_none_of_not_mem_keys {k : String} {l : List (String × Json)}
    (h : k ∉ l.map Prod.fst) : l.lookup k = none := by
  induction l with
  | nil => rfl
  | cons p t ih =>
    obtain ⟨a, b⟩ := p
    simp only [List.map_cons, List.mem_cons] at h
    push_neg at h
    have hba : (k == a) = false := beq_eq_false_iff_ne.mpr h.1
    simp [List.lookup, hba, ih h.2]

@[simp] theorem getOk_ok {ε α : Type} (a d : α) :
    getOk (Except.ok a : Except ε α) d = a := rfl

@[simp] theorem getOk_error {ε α : Type} (e : ε) (d : α) :
    getOk (Except.error e : Except ε α) d = d := rfl

@[simp] theorem except_map_ok {ε α β : Type} (f : α → β) (a : α) :
    (Except.ok a : Except ε α).map f = .ok (f a) := rfl

@[simp] theorem except_map_error {ε α β : Type} (f : α → β) (e : ε) :
    (Except.error e : Except ε α).map f = .error e := rfl

set_option maxHeartbeats 4000000 in
theorem foldl_applyEntry_eq_mergeRecord (l : List (String × Json)) (br : BenchmarkRecord)
    (hnd : (l.map Prod.fst).Nodup) :
    l.foldl (fun b p => applyEntry b p.1 p.2) br = mergeRecord br l := by
  induction l generalizing br with
  | nil => rfl
  | cons p t ih =>
    obtain ⟨k, v⟩ := p
    simp only [List.map_cons, List.nodup_cons] at hnd
    show t.foldl (fun b q => applyEntry b q.1 q.2) (applyEntry br k v) =
      mergeRecord br ((k, v) :: t)
    rw [ih (applyEntry br k v) hnd.2]
    have hlk := lookup_eq_none_of_not_mem_keys hnd.1
    by_cases hsk : k ∈ schemaKeys
    · simp only [schemaKeys, List.mem_cons, List.not_mem_nil, or_false] at hsk
      rcases hsk with rfl|rfl|rfl|rfl|rfl|rfl|rfl|rfl|rfl|rfl|rfl|rfl|rfl|rfl|rfl|rfl|rfl
      · cases hv : Json.asString v <;>
          simp [mergeRecord, applyEntry, okOrD, List.lookup, hlk, hv]
      · cases hv : Json.asString v <;>
          simp [mergeRecord, applyEntry, okOrD, List.lookup, hlk, hv]
      · cases hv : Json.asString v <;>
          simp [mergeRecord, applyEntry, okOrD, List.lookup, hlk, hv]
      · cases hv : Json.asString v <;>
          simp [mergeRecord, applyEntry, okOrD, List.lookup, hlk, hv]
      · cases hv : Json.asString v <;>
          simp [mergeRecord, applyEntry, okOrD, List.lookup, hlk, hv]
      · cases hv : Json.asString v <;>
          simp [mergeRecord, applyEntry, okOrD, List.lookup, hlk, hv]
      · cases hv : Json.asU64 v <;>
          simp [mergeRecord, applyEntry, okOrD, List.lookup, hlk, hv]
      · cases hv : Json.asU64 v <;>
          simp [mergeRecord, applyEntry, okOrD, List.lookup, hlk, hv]
      · cases hv : Json.asU64 v <;>
          simp [mergeRecord, applyEntry, okOrD, List.lookup, hlk, hv]
      · cases hv : Json.asU64 v <;>
          simp [mergeRecord, applyEntry, okOrD, List.lookup, hlk, hv]
      · simp [mergeRecord, applyEntry, okOrD, List.lookup, hlk]
      · cases hv : Json.asOptString v <;>
          simp [mergeRecord, applyEntry, okOrD, List.lookup, hlk, hv]
      · cases hv : Json.asDurationList v <;>
          simp [mergeRecord, applyEntry, okOrD, List.lookup, hlk, hv]
      · cases hv : Json.asShapes v <;>
          simp [mergeRecord, applyEntry, okOrD, List.lookup, hlk, hv]
      · cases hv : Json.asSystemInfo v <;>
          simp [mergeRecord, applyEntry, okOrD, List.lookup, hlk, hv]
      · cases hv : Json.asU128 v <;>
          simp [mergeRecord, applyEntry, okOrD, List.lookup, hlk, hv]
      · cases hv : Json.asU64 v <;>
          simp [mergeRecord, applyEntry, okOrD, List.lookup, hlk, hv]
    · have h1 : ¬ k = "backend" := fun h => hsk (by rw [h]; decide)
      have h2 : ¬ k = "device" := fun h => hsk (by rw [h]; decide)
      have h3 : ¬ k = "feature" := fun h => hsk (by rw [h]; decide)
      have h4 : ¬ k = "burnVersion" := fun h => hsk (by rw [h]; decide)
      have h5 : ¬ k = "gitHash" := fun h => hsk (by rw [h]; decide)
      have h6 : ¬ k = "name" := fun h => hsk (by rw [h]; decide)
      have h7 : ¬ k = "max" := fun h => hsk (by rw [h]; decide)
      have h8 : ¬ k = "mean" := fun h => hsk (by rw [h]; decide)
      have h9 : ¬ k = "median" := fun h => hsk (by rw [h]; decide)
      have h10 : ¬ k = "min" := fun h => hsk (by rw [h]; decide)
      have h11 : ¬ k = "numSamples" := fun h => hsk (by rw [h]; decide)
      have h12 : ¬ k = "options" := fun h => hsk (by rw [h]; decide)
      have h13 : ¬ k = "rawDurations" := fun h => hsk (by rw [h]; decide)
      have h14 : ¬ k = "shapes" := fun h => hsk (by rw [h]; decide)
      have h15 : ¬ k = "systemInfo" := fun h => hsk (by rw [h]; decide)
      have h16 : ¬ k = "timestamp" := fun h => hsk (by rw [h]; decide)
      have h17 : ¬ k = "variance" := fun h => hsk (by rw [h]; decide)
      have happ : applyEntry br k v = br := by
        unfold applyEntry
        rw [if_neg h1, if_neg h2, if_neg h3, if_neg h4, if_neg h5, if_neg h6, if_neg h7,
          if_neg h8, if_neg h9, if_neg h10, if_neg h11, if_neg h12, if_neg h13, if_neg h14,
          if_neg h15, if_neg h16, if_neg h17]
      rw [happ]
      have hb : ∀ s : String, s ∈ schemaKeys → (s == k) = false := fun s hs =>
        beq_eq_false_iff_ne.mpr fun h => hsk (h ▸ hs)
      simp only [mergeRecord, List.lookup, hb "backend" (by decide), hb "device" (by decide),
        hb "feature" (by decide), hb "burnVersion" (by decide), hb "gitHash" (by decide),
        hb "name" (by decide), hb "max" (by decide), hb "mean" (by decide),
        hb "median" (by decide), hb "min" (by decide), hb "options" (by decide),
        hb "rawDurations" (by decide), hb "shapes" (by decide), hb "systemInfo" (by decide),
        hb "timestamp" (by decide), hb "variance" (by decide)]

/-- `visit_map` on an entry list with pairwise-distinct keys whose entries
all parse: it succeeds and builds exactly the lookup-described merge over the
default scaffold. -/
theorem visitMap_eq_mergeRecord (l : List (String × Json))
    (hnd : (l.map Prod.fst).Nodup) (h : ∀ p ∈ l, entryOk p.1 p.2 = true) :
    visitMap l = .ok (mergeRecord default l) := by
  rw [visitMap, visitMap_foldl l default h, foldl_applyEntry_eq_mergeRecord l default hnd]

theorem lookup_perm {l₁ l₂ : List (String × Json)} (hp : l₁.Perm l₂)
    (hnd : (l₁.map Prod.fst).Nodup) (k : String) :
    l₁.lookup k = l₂.lookup k := by
  induction hp with
  | nil => rfl
  | cons p t ih =>
    obtain ⟨a, b⟩ := p
    simp only [List.map_cons, List.nodup_cons] at hnd
    cases hab : k == a with
    | true => simp [List.lookup, hab]
    | false => simp [List.lookup, hab, ih hnd.2]
  | swap p q t =>
    obtain ⟨a, b⟩ := p
    obtain ⟨c, d⟩ := q
    simp only [List.map_cons, List.nodup_cons, List.mem_cons] at hnd
    have hac : ¬ c = a := fun h => hnd.1 (Or.inl h)
    cases hab : k == a with
    | true =>
      have hkc : (k == c) = false := by
        have hka : k = a := by simpa using hab
        exact beq_eq_false_iff_ne.mpr fun h => hac (h ▸ hka)
      simp [List.lookup, hab, hkc]
    | false => cases hkc : k == c <;> simp [List.lookup, hab, hkc]
  | trans h₁ h₂ ih₁ ih₂ =>
    rename_i l₁ l₂ l₃
    rw [ih₁ hnd, ih₂ ((h₁.map Prod.fst).nodup_iff.mp hnd)]

theorem mergeRecord_perm {l₁ l₂ : List (String × Json)} (hp : l₁.Perm l₂)
    (hnd : (l₁.map Prod.fst).Nodup) (br : BenchmarkRecord) :
    mergeRecord br l₁ = mergeRecord br l₂ := by
  unfold mergeRecord
  simp only [lookup_perm hp hnd]

@[simp] theorem except_error_bind {ε α β : Type} (e : ε) (f : α → Except ε β) :
    (Except.error e : Except ε α) >>= f = .error e := rfl

@[simp] theorem except_ok_bind {ε α β : Type} (a : α) (f : α → Except ε β) :
    (Except.ok a : Except ε α) >>= f = f a := rfl

/-- An error result of `p` can only be a recoverable `malformed` error. -/
def MalformedOnly {α : Type} (p : Json → Except DecodeError α) : Prop :=
  ∀ v e, p v = .error e → ∃ m, e = DecodeError.malformed m

theorem bind_error_malformed {α β : Type} {e₁ : Except DecodeError α}
    {f : α → Except DecodeError β}
    (h₁ : ∀ e, e₁ = .error e → ∃ m, e = DecodeError.malformed m)
    (h₂ : ∀ a e, f a = .error e → ∃ m, e = DecodeError.malformed m) :
    ∀ e, (e₁ >>= f) = .error e → ∃ m, e = DecodeError.malformed m := by
  intro e h
  cases hx : e₁ with
  | error e₂ =>
    rw [hx, except_error_bind, Except.error.injEq] at h
    exact h ▸ h₁ e₂ hx
  | ok a =>
    rw [hx, except_ok_bind] at h
    exact h₂ a e h

theorem asString_malformedOnly : MalformedOnly Json.asString := by
  intro v e h
  cases v <;> simp only [Json.asString, Except.error.injEq] at h <;>
    first
      | exact ⟨_, h.symm⟩
      | exact ⟨_, h⟩
      | exact ⟨_, rfl⟩
      | cases h

theorem asU64_malformedOnly : MalformedOnly Json.asU64 := by
  intro v e h
  cases v <;> simp only [Json.asU64, Except.error.injEq] at h
  case num n =>
    split at h
    · cases h
    · simp only [Except.error.injEq] at h
      first
        | exact ⟨_, h.symm⟩
        | exact ⟨_, h⟩
        | exact ⟨_, rfl⟩
  all_goals first
    | exact ⟨_, h.symm⟩
    | exact ⟨_, h⟩
    | exact ⟨_, rfl⟩

theorem asU32_malformedOnly : MalformedOnly Json.asU32 := by
  intro v e h
  cases v <;> simp only [Json.asU32, Except.error.injEq] at h
  case num n =>
    split at h
    · cases h
    · simp only [Except.error.injEq] at h
      first
        | exact ⟨_, h.symm⟩
        | exact ⟨_, h⟩
        | exact ⟨_, rfl⟩
  all_goals first
    | exact ⟨_, h.symm⟩
    | exact ⟨_, h⟩
    | exact ⟨_, rfl⟩

theorem asUsize_malformedOnly : MalformedOnly Json.asUsize := by
  intro v e h
  cases v <;> simp only [Json.asUsize, Except.error.injEq] at h
  case num n =>
    split at h
    · cases h
    · simp only [Except.error.injEq] at h
      first
        | exact ⟨_, h.symm⟩
        | exact ⟨_, h⟩
        | exact ⟨_, rfl⟩
  all_goals first
    | exact ⟨_, h.symm⟩
    | exact ⟨_, h⟩
    | exact ⟨_, rfl⟩

theorem asU128_malformedOnly : MalformedOnly Json.asU128 := by
  intro v e h
  cases v <;> simp only [Json.asU128, Except.error.injEq] at h
  case num n =>
    split at h
    · cases h
    · simp only [Except.error.injEq] at h
      first
        | exact ⟨_, h.symm⟩
        | exact ⟨_, h⟩
        | exact ⟨_, rfl⟩
  all_goals first
    | exact ⟨_, h.symm⟩
    | exact ⟨_, h⟩
    | exact ⟨_, rfl⟩

theorem asOptString_malformedOnly : MalformedOnly Json.asOptString := by
  intro v e h
  cases v <;> simp only [Json.asOptString, Except.error.injEq] at h <;>
    first
      | exact ⟨_, h.symm⟩
      | exact ⟨_, h⟩
      | exact ⟨_, rfl⟩
      | cases h

theorem mapM_malformedOnly {α : Type} {f : Json → Except DecodeError α}
    (hf : MalformedOnly f) :
    ∀ (l : List Json) (e : DecodeError),
      l.mapM f = .error e → ∃ m, e = DecodeError.malformed m := by
  intro l
  induction l with
  | nil => intro e h; cases h
  | cons x t ih =>
    intro e h
    rw [List.mapM_cons] at h
    revert h
    refine bind_error_malformed (fun e₂ he => hf x e₂ he) ?_ e
    intro a e₂ h₂
    revert h₂
    refine bind_error_malformed (fun e₃ he => ih e₃ he) ?_ e₂
    intro bs e₃ h₃
    cases h₃

theorem asDuration_malformedOnly : MalformedOnly Json.asDuration := by
  intro v e h
  unfold Json.asDuration at h
  split at h
  · revert h
    refine bind_error_malformed (fun e₂ he => asU64_malformedOnly _ e₂ he) ?_ e
    intro a e₂ h₂
    revert h₂
    refine bind_error_malformed (fun e₃ he => asU32_malformedOnly _ e₃ he) ?_ e₂
    intro b e₃ h₃
    cases h₃
  · revert h
    refine bind_error_malformed (fun e₂ he => asU32_malformedOnly _ e₂ he) ?_ e
    intro a e₂ h₂
    revert h₂
    refine bind_error_malformed (fun e₃ he => asU64_malformedOnly _ e₃ he) ?_ e₂
    intro b e₃ h₃
    cases h₃
  · simp only [Except.error.injEq] at h
    first
      | exact ⟨_, h.symm⟩
      | exact ⟨_, h⟩
      | exact ⟨_, rfl⟩

theorem asDurationList_malformedOnly : MalformedOnly Json.asDurationList := by
  intro v e h
  cases v with
  | arr elems => exact mapM_malformedOnly asDuration_malformedOnly elems e h
  | null => exact ⟨_, by simpa [Json.asDurationList] using h.symm⟩
  | str s => exact ⟨_, by simpa [Json.asDurationList] using h.symm⟩
  | num n => exact ⟨_, by simpa [Json.asDurationList] using h.symm⟩
  | obj o => exact ⟨_, by simpa [Json.asDurationList] using h.symm⟩

theorem asShape_malformedOnly : MalformedOnly Json.asShape := by
  intro v e h
  cases v with
  | arr elems => exact mapM_malformedOnly asUsize_malformedOnly elems e h
  | null => exact ⟨_, by simpa [Json.asShape] using h.symm⟩
  | str s => exact ⟨_, by simpa [Json.asShape] using h.symm⟩
  | num n => exact ⟨_, by simpa [Json.asShape] using h.symm⟩
  | obj o => exact ⟨_, by simpa [Json.asShape] using h.symm⟩

theorem asShapes_malformedOnly : MalformedOnly Json.asShapes := by
  intro v e h
  cases v with
  | arr elems => exact mapM_malformedOnly asShape_malformedOnly elems e h
  | null => exact ⟨_, by simpa [Json.asShapes] using h.symm⟩
  | str s => exact ⟨_, by simpa [Json.asShapes] using h.symm⟩
  | num n => exact ⟨_, by simpa [Json.asShapes] using h.symm⟩
  | obj o => exact ⟨_, by simpa [Json.asShapes] using h.symm⟩

theorem asStringList_malformedOnly : MalformedOnly Json.asStringList := by
  intro v e h
  cases v with
  | arr elems => exact mapM_malformedOnly asString_malformedOnly elems e h
  | null => exact ⟨_, by simpa [Json.asStringList] using h.symm⟩
  | str s => exact ⟨_, by simpa [Json.asStringList] using h.symm⟩
  | num n => exact ⟨_, by simpa [Json.asStringList] using h.symm⟩
  | obj o => exact ⟨_, by simpa [Json.asStringList] using h.symm⟩

theorem asSystemInfo_malformedOnly : MalformedOnly Json.asSystemInfo := by
  intro v e h
  unfold Json.asSystemInfo at h
  split at h
  · revert h
    refine bind_error_malformed (fun e₂ he => asStringList_malformedOnly _ e₂ he) ?_ e
    intro a e₂ h₂
    revert h₂
    refine bind_error_malformed (fun e₃ he => asStringList_malformedOnly _ e₃ he) ?_ e₂
    intro b e₃ h₃
    cases h₃
  · revert h
    refine bind_error_malformed (fun e₂ he => asStringList_malformedOnly _ e₂ he) ?_ e
    intro a e₂ h₂
    revert h₂
    refine bind_error_malformed (fun e₃ he => asStringList_malformedOnly _ e₃ he) ?_ e₂
    intro b e₃ h₃
    cases h₃
  · simp only [Except.error.injEq] at h
    first
      | exact ⟨_, h.symm⟩
      | exact ⟨_, h⟩
      | exact ⟨_, rfl⟩

/-- `visit_map` on an entry with an unrecognized key: the
`panic!("Unexpected Key: {}", key)` arm fires. -/
theorem visitEntry_unknown (br : BenchmarkRecord) {k : String} (v : Json)
    (hk : k ∉ schemaKeys) :
    visitEntry br k v = .error (.panicked ("Unexpected Key: " ++ k)) := by
  have h1 : ¬ k = "backend" := fun h => hk (by rw [h]; decide)
  have h2 : ¬ k = "device" := fun h => hk (by rw [h]; decide)
  have h3 : ¬ k = "feature" := fun h => hk (by rw [h]; decide)
  have h4 : ¬ k = "burnVersion" := fun h => hk (by rw [h]; decide)
  have h5 : ¬ k = "gitHash" := fun h => hk (by rw [h]; decide)
  have h6 : ¬ k = "name" := fun h => hk (by rw [h]; decide)
  have h7 : ¬ k = "max" := fun h => hk (by rw [h]; decide)
  have h8 : ¬ k = "mean" := fun h => hk (by rw [h]; decide)
  have h9 : ¬ k = "median" := fun h => hk (by rw [h]; decide)
  have h10 : ¬ k = "min" := fun h => hk (by rw [h]; decide)
  have h11 : ¬ k = "numSamples" := fun h => hk (by rw [h]; decide)
  have h12 : ¬ k = "options" := fun h => hk (by rw [h]; decide)
  have h13 : ¬ k = "rawDurations" := fun h => hk (by rw [h]; decide)
  have h14 : ¬ k = "shapes" := fun h => hk (by rw [h]; decide)
  have h15 : ¬ k = "systemInfo" := fun h => hk (by rw [h]; decide)
  have h16 : ¬ k = "timestamp" := fun h => hk (by rw [h]; decide)
  have h17 : ¬ k = "variance" := fun h => hk (by rw [h]; decide)
  unfold visitEntry
  rw [if_neg h1, if_neg h2, if_neg h3, if_neg h4, if_neg h5, if_neg h6, if_neg h7,
    if_neg h8, if_neg h9, if_neg h10, if_neg h11, if_neg h12, if_neg h13, if_neg h14,
    if_neg h15, if_neg h16, if_neg h17]

theorem exists_error_of_isOk_false {ε α : Type} {e : Except ε α} (h : e.isOk = false) :
    ∃ err, e = .error err := by
  cases e with
  | ok a => simp [Except.isOk, Except.toBool] at h
  | error err => exact ⟨err, rfl⟩

set_option maxHeartbeats 2000000 in
/-- `visit_map` on a recognized key whose value has the wrong shape: the
typed `next_value` fails with a recoverable `serde` error. -/
theorem visitEntry_malformed (br : BenchmarkRecord) {k : String} {v : Json}
    (hk : k ∈ schemaKeys) (hbad : entryOk k v = false) :
    ∃ m, visitEntry br k v = .error (DecodeError.malformed m) := by
  simp only [schemaKeys, List.mem_cons, List.not_mem_nil, or_false] at hk
  rcases hk with rfl|rfl|rfl|rfl|rfl|rfl|rfl|rfl|rfl|rfl|rfl|rfl|rfl|rfl|rfl|rfl|rfl
  · simp only [entryOk] at hbad
    norm_num at hbad
    obtain ⟨err, he⟩ := exists_error_of_isOk_false hbad
    obtain ⟨m, rfl⟩ := asString_malformedOnly v err he
    exact ⟨m, by simp [visitEntry, he]⟩
  · simp only [entryOk] at hbad
    norm_num at hbad
    obtain ⟨err, he⟩ := exists_error_of_isOk_false hbad
    obtain ⟨m, rfl⟩ := asString_malformedOnly v err he
    exact ⟨m, by simp [visitEntry, he]⟩
  · simp only [entryOk] at hbad
    norm_num at hbad
    obtain ⟨err, he⟩ := exists_error_of_isOk_false hbad
    obtain ⟨m, rfl⟩ := asString_malformedOnly v err he
    exact ⟨m, by simp [visitEntry, he]⟩
  · simp only [entryOk] at hbad
    norm_num at hbad
    obtain ⟨err, he⟩ := exists_error_of_isOk_false hbad
    obtain ⟨m, rfl⟩ := asString_malformedOnly v err he
    exact ⟨m, by simp [visitEntry, he]⟩
  · simp only [entryOk] at hbad
    norm_num at hbad
    obtain ⟨err, he⟩ := exists_error_of_isOk_false hbad
    obtain ⟨m, rfl⟩ := asString_malformedOnly v err he
    exact ⟨m, by simp [visitEntry, he]⟩
  · simp only [entryOk] at hbad
    norm_num at hbad
    obtain ⟨err, he⟩ := exists_error_of_isOk_false hbad
    obtain ⟨m, rfl⟩ := asString_malformedOnly v err he
    exact ⟨m, by simp [visitEntry, he]⟩
  · simp only [entryOk] at hbad
    norm_num at hbad
    obtain ⟨err, he⟩ := exists_error_of_isOk_false hbad
    obtain ⟨m, rfl⟩ := asU64_malformedOnly v err he
    exact ⟨m, by simp [visitEntry, he]⟩
  · simp only [entryOk] at hbad
    norm_num at hbad
    obtain ⟨err, he⟩ := exists_error_of_isOk_false hbad
    obtain ⟨m, rfl⟩ := asU64_malformedOnly v err he
    exact ⟨m, by simp [visitEntry, he]⟩
  · simp only [entryOk] at hbad
    norm_num at hbad
    obtain ⟨err, he⟩ := exists_error_of_isOk_false hbad
    obtain ⟨m, rfl⟩ := asU64_malformedOnly v err he
    exact ⟨m, by simp [visitEntry, he]⟩
  · simp only [entryOk] at hbad
    norm_num at hbad
    obtain ⟨err, he⟩ := exists_error_of_isOk_false hbad
    obtain ⟨m, rfl⟩ := asU64_malformedOnly v err he
    exact ⟨m, by simp [visitEntry, he]⟩
  · simp only [entryOk] at hbad
    norm_num at hbad
    obtain ⟨err, he⟩ := exists_error_of_isOk_false hbad
    obtain ⟨m, rfl⟩ := asUsize_malformedOnly v err he
    exact ⟨m, by simp [visitEntry, he]⟩
  · simp only [entryOk] at hbad
    norm_num at hbad
    obtain ⟨err, he⟩ := exists_error_of_isOk_false hbad
    obtain ⟨m, rfl⟩ := asOptString_malformedOnly v err he
    exact ⟨m, by simp [visitEntry, he]⟩
  · simp only [entryOk] at hbad
    norm_num at hbad
    obtain ⟨err, he⟩ := exists_error_of_isOk_false hbad
    obtain ⟨m, rfl⟩ := asDurationList_malformedOnly v err he
    exact ⟨m, by simp [visitEntry, he]⟩
  · simp only [entryOk] at hbad
    norm_num at hbad
    obtain ⟨err, he⟩ := exists_error_of_isOk_false hbad
    obtain ⟨m, rfl⟩ := asShapes_malformedOnly v err he
    exact ⟨m, by simp [visitEntry, he]⟩
  · simp only [entryOk] at hbad
    norm_num at hbad
    obtain ⟨err, he⟩ := exists_error_of_isOk_false hbad
    obtain ⟨m, rfl⟩ := asSystemInfo_malformedOnly v err he
    exact ⟨m, by simp [visitEntry, he]⟩
  · simp only [entryOk] at hbad
    norm_num at hbad
    obtain ⟨err, he⟩ := exists_error_of_isOk_false hbad
    obtain ⟨m, rfl⟩ := asU128_malformedOnly v err he
    exact ⟨m, by simp [visitEntry, he]⟩
  · simp only [entryOk] at hbad
    norm_num at hbad
    obtain ⟨err, he⟩ := exists_error_of_isOk_false hbad
    obtain ⟨m, rfl⟩ := asU64_malformedOnly v err he
    exact ⟨m, by simp [visitEntry, he]⟩

/-- A present `numSamples` entry (with a `usize` value) is parsed and
discarded: decoding with and without it agree. -/
theorem visitMap_numSamples_discarded (pre post : List (String × Json)) (n : ℕ)
    (hn : n < 2 ^ 64) :
    visitMap (pre ++ ("numSamples", Json.num n) :: post) = visitMap (pre ++ post) := by
  unfold visitMap
  rw [List.foldlM_append, List.foldlM_append]
  cases hpre : pre.foldlM (fun b p => visitEntry b p.1 p.2) default with
  | error e => rfl
  | ok b =>
    show ((("numSamples", Json.num n) :: post).foldlM
        (fun b p => visitEntry b p.1 p.2) b : Except DecodeError BenchmarkRecord) = _
    show visitEntry b "numSamples" (Json.num n) >>=
      (fun b₂ => post.foldlM (fun b p => visitEntry b p.1 p.2) b₂) = _
    have hn2 : n < 18446744073709551616 := by simpa using hn
    have : visitEntry b "numSamples" (Json.num n) = .ok b := by
      simp [visitEntry, Json.asUsize, hn2]
    rw [this, except_ok_bind]

@[simp] theorem default_record_eq :
    (default : BenchmarkRecord) =
      ⟨"", "", "", "", ⟨[], []⟩,
        ⟨⟨TimingMethod.System, []⟩, ⟨⟨0⟩, ⟨0⟩, ⟨0⟩, ⟨0⟩, ⟨0⟩⟩, "", "", none, [], 0⟩⟩ := rfl

/-- C3 (amended): the decoder accepts the schema keys in any key order (on
well-formed entry lists with distinct keys, decoding is invariant under
permutation); a present `numSamples` entry with a `usize` value is parsed and
discarded; but an entry with any other unrecognized key aborts with a
process-fatal `panic!("Unexpected Key: ...")` rather than a recoverable
`MalformedRecord`-style error, while a recognized key with a value of the
wrong shape does fail with a recoverable `malformed` decode error. -/
theorem visitMap_order_tolerance_and_errors :
    (∀ l₁ l₂ : List (String × Json), l₁.Perm l₂ → (l₁.map Prod.fst).Nodup →
      (∀ p ∈ l₁, entryOk p.1 p.2 = true) → visitMap l₁ = visitMap l₂) ∧
    (∀ (pre post : List (String × Json)) (n : ℕ), n < 2 ^ 64 →
      visitMap (pre ++ ("numSamples", Json.num n) :: post) = visitMap (pre ++ post)) ∧
    (∀ (pre : List (String × Json)) (k : String) (v : Json)
        (post : List (String × Json)),
      (∀ p ∈ pre, entryOk p.1 p.2 = true) → k ∉ schemaKeys →
      visitMap (pre ++ (k, v) :: post) =
        .error (.panicked ("Unexpected Key: " ++ k))) ∧
    (∀ (pre : List (String × Json)) (k : String) (v : Json)
        (post : List (String × Json)),
      (∀ p ∈ pre, entryOk p.1 p.2 = true) → k ∈ schemaKeys → entryOk k v = false →
      ∃ m, visitMap (pre ++ (k, v) :: post) = .error (DecodeError.malformed m)) := by
  refine ⟨?_, visitMap_numSamples_discarded, ?_, ?_⟩
  · intro l₁ l₂ hp hnd h
    rw [visitMap_eq_mergeRecord l₁ hnd h,
      visitMap_eq_mergeRecord l₂ ((hp.map Prod.fst).nodup_iff.mp hnd)
        (fun p hp₂ => h p (hp.mem_iff.mpr hp₂)),
      mergeRecord_perm hp hnd]
  · intro pre k v post hpre hk
    unfold visitMap
    rw [List.foldlM_append, visitMap_foldl pre default hpre, except_ok_bind]
    show visitEntry _ k v >>=
      (fun b₂ => post.foldlM (fun b p => visitEntry b p.1 p.2) b₂) = _
    rw [visitEntry_unknown _ v hk, except_error_bind]
  · intro pre k v post hpre hk hbad
    obtain ⟨m, hm⟩ := visitEntry_malformed
      (pre.foldl (fun b p => applyEntry b p.1 p.2) default) hk hbad
    refine ⟨m, ?_⟩
    unfold visitMap
    rw [List.foldlM_append, visitMap_foldl pre default hpre, except_ok_bind]
    show visitEntry _ k v >>=
      (fun b₂ => post.foldlM (fun b p => visitEntry b p.1 p.2) b₂) = _
    rw [hm, except_error_bind]

/-- Counterexample for C3: an unrecognized key does not produce a recoverable
`MalformedRecord`-style decode error — it hits the process-fatal
`panic!("Unexpected Key: {}", key)` arm. -/
theorem visitMap_unknown_key_is_panic :
    visitMap [("operation", Json.str "matmul")] =
      .error (.panicked "Unexpected Key: operation") := rfl

/-- Witness for C3 at concrete inputs: a two-entry map decodes identically in
both key orders; a `numSamples` entry is discarded; an unknown key panics; a
wrongly-shaped value for a schema key gives a recoverable `malformed`
error. -/
theorem visitMap_order_tolerance_witness :
    visitMap [("backend", Json.str "candle"), ("name", Json.str "unary")] =
      visitMap [("name", Json.str "unary"), ("backend", Json.str "candle")] ∧
    visitMap [("numSamples", Json.num 10)] = visitMap [] ∧
    visitMap [("operation", Json.str "x")] =
      .error (.panicked "Unexpected Key: operation") ∧
    (∃ m, visitMap [("backend", Json.num 3)] = .error (DecodeError.malformed m)) := by
  refine ⟨?_, ?_, ?_, ?_⟩
  · exact visitMap_order_tolerance_and_errors.1
      [("backend", Json.str "candle"), ("name", Json.str "unary")]
      [("name", Json.str "unary"), ("backend", Json.str "candle")]
      (List.Perm.swap ("name", Json.str "unary") ("backend", Json.str "candle") [])
      (by decide) (by decide)
  · exact visitMap_order_tolerance_and_errors.2.1 [] [] 10 (by norm_num)
  · exact visitMap_order_tolerance_and_errors.2.2.1 [] "operation" (Json.str "x") []
      (by decide) (by decide)
  · exact visitMap_order_tolerance_and_errors.2.2.2 [] "backend" (Json.num 3) []
      (by decide) (by decide) (by decide)

/-- C9: decoding a mapping that omits any subset of the schema keys succeeds
rather than erroring, and every missing field keeps its default-constructed
value: empty strings for backend/device/feature/burnVersion/gitHash/name,
zero durations for the five statistics, `none` for options, empty sequences
for rawDurations and shapes, zero timestamp (and the never-decoded
timing_method keeps its default). -/
theorem visitMap_missing_keys_default (l : List (String × Json))
    (hnd : (l.map Prod.fst).Nodup) (h : ∀ p ∈ l, entryOk p.1 p.2 = true) :
    ∃ br, visitMap l = .ok br ∧
      ("backend" ∉ l.map Prod.fst → br.backend = "") ∧
      ("device" ∉ l.map Prod.fst → br.device = "") ∧
      ("feature" ∉ l.map Prod.fst → br.feature = "") ∧
      ("burnVersion" ∉ l.map Prod.fst → br.burn_version = "") ∧
      ("gitHash" ∉ l.map Prod.fst → br.results.git_hash = "") ∧
      ("name" ∉ l.map Prod.fst → br.results.name = "") ∧
      ("mean" ∉ l.map Prod.fst → br.results.computed.mean = ⟨0⟩) ∧
      ("median" ∉ l.map Prod.fst → br.results.computed.median = ⟨0⟩) ∧
      ("variance" ∉ l.map Prod.fst → br.results.computed.variance = ⟨0⟩) ∧
      ("min" ∉ l.map Prod.fst → br.results.computed.min = ⟨0⟩) ∧
      ("max" ∉ l.map Prod.fst → br.results.computed.max = ⟨0⟩) ∧
      ("options" ∉ l.map Prod.fst → br.results.options = none) ∧
      ("rawDurations" ∉ l.map Prod.fst → br.results.raw.durations = []) ∧
      ("shapes" ∉ l.map Prod.fst → br.results.shapes = []) ∧
      ("timestamp" ∉ l.map Prod.fst → br.results.timestamp = 0) ∧
      ("systemInfo" ∉ l.map Prod.fst → br.system_info = ⟨[], []⟩) ∧
      br.results.raw.timing_method = TimingMethod.System := by
  refine ⟨mergeRecord default l, visitMap_eq_mergeRecord l hnd h,
    fun hm => ?_, fun hm => ?_, fun hm => ?_, fun hm => ?_, fun hm => ?_, fun hm => ?_,
    fun hm => ?_, fun hm => ?_, fun hm => ?_, fun hm => ?_, fun hm => ?_, fun hm => ?_,
    fun hm => ?_, fun hm => ?_, fun hm => ?_, fun hm => ?_, rfl⟩ <;>
    simp [mergeRecord, okOrD, lookup_eq_none_of_not_mem_keys hm]

/-- Witness for C9: a map carrying only the `backend` key decodes
successfully and every other field is default-constructed. -/
theorem visitMap_missing_keys_default_witness :
    ∃ br, visitMap [("backend", Json.str "candle")] = .ok br ∧
      ("backend" ∉ [("backend", Json.str "candle")].map Prod.fst → br.backend = "") ∧
      ("device" ∉ [("backend", Json.str "candle")].map Prod.fst → br.device = "") ∧
      ("feature" ∉ [("backend", Json.str "candle")].map Prod.fst → br.feature = "") ∧
      ("burnVersion" ∉ [("backend", Json.str "candle")].map Prod.fst →
        br.burn_version = "") ∧
      ("gitHash" ∉ [("backend", Json.str "candle")].map Prod.fst →
        br.results.git_hash = "") ∧
      ("name" ∉ [("backend", Json.str "candle")].map Prod.fst → br.results.name = "") ∧
      ("mean" ∉ [("backend", Json.str "candle")].map Prod.fst →
        br.results.computed.mean = ⟨0⟩) ∧
      ("median" ∉ [("backend", Json.str "candle")].map Prod.fst →
        br.results.computed.median = ⟨0⟩) ∧
      ("variance" ∉ [("backend", Json.str "candle")].map Prod.fst →
        br.results.computed.variance = ⟨0⟩) ∧
      ("min" ∉ [("backend", Json.str "candle")].map Prod.fst →
        br.results.computed.min = ⟨0⟩) ∧
      ("max" ∉ [("backend", Json.str "candle")].map Prod.fst →
        br.results.computed.max = ⟨0⟩) ∧
      ("options" ∉ [("backend", Json.str "candle")].map Prod.fst →
        br.results.options = none) ∧
      ("rawDurations" ∉ [("backend", Json.str "candle")].map Prod.fst →
        br.results.raw.durations = []) ∧
      ("shapes" ∉ [("backend", Json.str "candle")].map Prod.fst →
        br.results.shapes = []) ∧
      ("timestamp" ∉ [("backend", Json.str "candle")].map Prod.fst →
        br.results.timestamp = 0) ∧
      ("systemInfo" ∉ [("backend", Json.str "candle")].map Prod.fst →
        br.system_info = ⟨[], []⟩) ∧
      br.results.raw.timing_method = TimingMethod.System :=
  visitMap_missing_keys_default [("backend", Json.str "candle")] (by decide) (by decide)

theorem asU64_num_ok {n : ℕ} (h : n < 2 ^ 64) : Json.asU64 (.num n) = .ok n := by
  have h2 : n < 18446744073709551616 := by simpa using h
  simp [Json.asU64, h2]

theorem asUsize_num_ok {n : ℕ} (h : n < 2 ^ 64) : Json.asUsize (.num n) = .ok n := by
  have h2 : n < 18446744073709551616 := by simpa using h
  simp [Json.asUsize, h2]

theorem asU128_num_ok {n : ℕ} (h : n < 2 ^ 128) : Json.asU128 (.num n) = .ok n := by
  have h2 : n < 340282366920938463463374607431768211456 := by simpa using h
  simp [Json.asU128, h2]

theorem asDuration_serializeDuration (d : Duration)
    (h : d.nanos < 2 ^ 64 * 1000000000) :
    (serializeDuration d).asDuration = .ok d := by
  have h1 : d.nanos / 1000000000 < 2 ^ 64 := by omega
  have h2 : d.nanos % 1000000000 < 2 ^ 32 := by omega
  simp only [serializeDuration, Json.asDuration, asU64_num_ok h1]
  rw [except_ok_bind]
  simp only [Json.asU32, h2, if_pos]
  rw [except_ok_bind]
  congr 1
  cases d with
  | mk n =>
    congr 1
    show n / 1000000000 * 1000000000 + n % 1000000000 = n
    omega

theorem asDurationList_serialized (l : List Duration)
    (h : ∀ d ∈ l, d.nanos < 2 ^ 64 * 1000000000) :
    Json.asDurationList (.arr (l.map serializeDuration)) = .ok l := by
  induction l with
  | nil => rfl
  | cons d t ih =>
    show (serializeDuration d :: t.map serializeDuration).mapM Json.asDuration = _
    rw [List.mapM_cons, asDuration_serializeDuration d (h d (by simp)), except_ok_bind]
    have ht : Json.asDurationList (.arr (t.map serializeDuration)) = .ok t :=
      ih fun x hx => h x (by simp [hx])
    show (t.map serializeDuration).mapM Json.asDuration >>= _ = _
    rw [show (t.map serializeDuration).mapM Json.asDuration = .ok t from ht,
      except_ok_bind]
    rfl

theorem asShape_serialized (s : List ℕ) (h : ∀ n ∈ s, n < 2 ^ 64) :
    Json.asShape (.arr (s.map Json.num)) = .ok s := by
  induction s with
  | nil => rfl
  | cons n t ih =>
    show (Json.num n :: t.map Json.num).mapM Json.asUsize = _
    rw [List.mapM_cons, asUsize_num_ok (h n (by simp)), except_ok_bind]
    have ht : Json.asShape (.arr (t.map Json.num)) = .ok t :=
      ih fun x hx => h x (by simp [hx])
    show (t.map Json.num).mapM Json.asUsize >>= _ = _
    rw [show (t.map Json.num).mapM Json.asUsize = .ok t from ht, except_ok_bind]
    rfl

theorem asShapes_serialized (ss : List (List ℕ)) (h : ∀ s ∈ ss, ∀ n ∈ s, n < 2 ^ 64) :
    Json.asShapes (.arr (ss.map fun s => Json.arr (s.map Json.num))) = .ok ss := by
  induction ss with
  | nil => rfl
  | cons s t ih =>
    show (Json.arr (s.map Json.num) :: t.map fun s => Json.arr (s.map Json.num)).mapM
      Json.asShape = _
    rw [List.mapM_cons, asShape_serialized s (h s (by simp)), except_ok_bind]
    have ht : Json.asShapes (.arr (t.map fun s => Json.arr (s.map Json.num))) = .ok t :=
      ih fun x hx => h x (by simp [hx])
    show (t.map fun s => Json.arr (s.map Json.num)).mapM Json.asShape >>= _ = _
    rw [show (t.map fun s => Json.arr (s.map Json.num)).mapM Json.asShape = .ok t from ht,
      except_ok_bind]
    rfl

theorem asStringList_serialized (l : List String) :
    Json.asStringList (.arr (l.map Json.str)) = .ok l := by
  induction l with
  | nil => rfl
  | cons s t ih =>
    show (Json.str s :: t.map Json.str).mapM Json.asString = _
    rw [List.mapM_cons]
    show Except.ok s >>= _ = _
    rw [except_ok_bind]
    show (t.map Json.str).mapM Json.asString >>= _ = _
    rw [show (t.map Json.str).mapM Json.asString = .ok t from ih, except_ok_bind]
    rfl

theorem asSystemInfo_serialized (si : BenchmarkSystemInfo) :
    (serializeSystemInfo si).asSystemInfo = .ok si := by
  obtain ⟨cpus, gpus⟩ := si
  show Json.asSystemInfo (.obj [("cpus", .arr (cpus.map .str)),
    ("gpus", .arr (gpus.map .str))]) = _
  simp only [Json.asSystemInfo, asStringList_serialized, except_ok_bind]
  rfl

theorem asOptString_serializeOptStr (o : Option String) :
    (serializeOptStr o).asOptString = .ok o := by
  cases o <;> rfl

set_option maxHeartbeats 4000000 in
theorem visitMap_serializeRecord (r : BenchmarkRecord) (h : RecordBounds r) :
    visitMap (serializeRecord r) = .ok (truncateRecord r) := by
  obtain ⟨h1, h2, h3, h4, h5, h6, h7, h8, h9⟩ := h
  rw [visitMap_eq_mergeRecord (serializeRecord r) ?hnd ?hok]
  case hnd =>
    simp only [serializeRecord, List.map_cons, List.map_nil]
    decide
  case hok =>
    intro p hp
    simp only [serializeRecord, List.mem_cons, List.not_mem_nil, or_false] at hp
    rcases hp with rfl|rfl|rfl|rfl|rfl|rfl|rfl|rfl|rfl|rfl|rfl|rfl|rfl|rfl|rfl|rfl|rfl <;>
      simp [entryOk, Except.isOk, Except.toBool, Json.asString,
        asU64_num_ok h1, asU64_num_ok h2, asU64_num_ok h3, asU64_num_ok h4,
        asU64_num_ok h5, asUsize_num_ok h6, asU128_num_ok h9,
        asDurationList_serialized _ h7, asShapes_serialized _ h8,
        asSystemInfo_serialized, asOptString_serializeOptStr]
  · congr 1
    obtain ⟨backend, device, feature, burn_version, system_info, results⟩ := r
    obtain ⟨raw, computed, git_hash, name, options, shapes, timestamp⟩ := results
    obtain ⟨tm, durs⟩ := raw
    obtain ⟨mean, median, variance, minv, maxv⟩ := computed
    simp only [serializeRecord] at h1 h2 h3 h4 h5 h6 h7 h8 h9 ⊢
    simp [mergeRecord, okOrD, List.lookup, truncateRecord, Json.asString,
      asU64_num_ok h1, asU64_num_ok h2, asU64_num_ok h3, asU64_num_ok h4, asU64_num_ok h5,
      asU128_num_ok h9, asDurationList_serialized durs h7, asShapes_serialized shapes h8,
      asSystemInfo_serialized, asOptString_serializeOptStr]

/-- C2 (amended): for every record within the deserializer's integer bounds,
decoding the encoding returns the record with its five statistics truncated
to whole microseconds and the never-serialized `timing_method` reset to its
default (`System`) — these are the exceptions beyond the regenerated
`numSamples`; `numSamples` is regenerated from the raw duration count on
every encode; and when the statistics already are whole microseconds and the
timing method is the default, decode(encode(record)) = record exactly. -/
theorem decode_encode_roundtrip (r : BenchmarkRecord) (h : RecordBounds r) :
    deserializeRecord (.obj (serializeRecord r)) = .ok (truncateRecord r) ∧
    ("numSamples", Json.num r.results.raw.durations.length) ∈ serializeRecord r ∧
    (r.results.raw.timing_method = TimingMethod.System →
      r.results.computed.mean.nanos % 1000 = 0 →
      r.results.computed.median.nanos % 1000 = 0 →
      r.results.computed.variance.nanos % 1000 = 0 →
      r.results.computed.min.nanos % 1000 = 0 →
      r.results.computed.max.nanos % 1000 = 0 →
      deserializeRecord (.obj (serializeRecord r)) = .ok r) := by
  have hmain : deserializeRecord (.obj (serializeRecord r)) = .ok (truncateRecord r) :=
    visitMap_serializeRecord r h
  refine ⟨hmain, by simp [serializeRecord], ?_⟩
  intro htm hm hmd hv hmin hmax
  rw [hmain]
  congr 1
  obtain ⟨backend, device, feature, burn_version, system_info, results⟩ := r
  obtain ⟨raw, computed, git_hash, name, options, shapes, timestamp⟩ := results
  obtain ⟨tm, durs⟩ := raw
  obtain ⟨⟨m1⟩, ⟨m2⟩, ⟨m3⟩, ⟨m4⟩, ⟨m5⟩⟩ := computed
  simp only at htm hm hmd hv hmin hmax
  subst htm
  simp only [truncateRecord, Duration.fromMicros, Duration.asMicros]
  refine congrArg _ ?_
  simp only [BenchmarkResult.mk.injEq, BenchmarkComputations.mk.injEq,
    Duration.mk.injEq, and_true, true_and]
  refine ⟨?_, ?_, ?_, ?_, ?_⟩ <;> omega

/-- Counterexample for C2: `sampleRecord` is well-formed — its computed
statistics are exactly those the statistics engine derives from its raw
sample list — yet decoding its encoding does not return it: the 1500ns
statistics come back truncated to whole microseconds and the `Device`
timing method is reset to the default. -/
theorem decode_encode_not_identity :
    BenchmarkComputations.new sampleRecord.results.raw =
      some sampleRecord.results.computed ∧
    deserializeRecord (.obj (serializeRecord sampleRecord)) ≠ .ok sampleRecord := by
  constructor
  · have h1 : BenchmarkDurations.mean_duration ⟨TimingMethod.Device, [⟨1500⟩]⟩ =
        some ⟨1500⟩ := by decide
    have h2 : BenchmarkDurations.min_max_median_durations
        ⟨TimingMethod.Device, [⟨1500⟩]⟩ = some (⟨1500⟩, ⟨1500⟩, ⟨1500⟩) := by decide
    have h3 : BenchmarkDurations.variance_duration ⟨TimingMethod.Device, [⟨1500⟩]⟩
        ⟨1500⟩ = some ⟨0⟩ := by
      simp only [BenchmarkDurations.variance_duration, sumDurations, Duration.divU32,
        Duration.asSecsRat, Duration.fromSecsRat, List.map, List.sum]
      norm_num [Int.toNat]
    simp [BenchmarkComputations.new, sampleRecord, h1, h2, h3]
  · decide

/-- Witness for C2 at the concrete `sampleRecord`. -/
theorem decode_encode_roundtrip_witness :
    deserializeRecord (.obj (serializeRecord sampleRecord)) =
      .ok (truncateRecord sampleRecord) ∧
    ("numSamples", Json.num sampleRecord.results.raw.durations.length) ∈
      serializeRecord sampleRecord ∧
    (sampleRecord.results.raw.timing_method = TimingMethod.System →
      sampleRecord.results.computed.mean.nanos % 1000 = 0 →
      sampleRecord.results.computed.median.nanos % 1000 = 0 →
      sampleRecord.results.computed.variance.nanos % 1000 = 0 →
      sampleRecord.results.computed.min.nanos % 1000 = 0 →
      sampleRecord.results.computed.max.nanos % 1000 = 0 →
      deserializeRecord (.obj (serializeRecord sampleRecord)) = .ok sampleRecord) :=
  decode_encode_roundtrip sampleRecord (by decide)
